import Mathlib

/-!
Verification of the catalog data-access layer of the `mystore` storefront
repository. The layer reads documents (products, collections, upsells,
categories, settings, page hero) from a document store, with option
sanitization, field projection, visibility filtering, deterministic sorting,
denormalized reference resolution, and default-document bootstrapping.

The embedding models JavaScript values with the `Value` type, documents as
ordered association lists (JS objects), and the document store as one list of
`(id, document)` pairs per partition. Date strings are represented by their
numeric time value (`Value.num`), so `new Date(s).getTime()` is modelled by
reading that number. Store effects that the specification talks about (point
reads, queries, writes) are returned as an explicit `StoreOp` log.
-/

/-- Model of a JavaScript/JSON value as stored in or returned from the
document store. `undefined` models JavaScript `undefined`. -/
inductive Value where
  | undefined : Value
  | nul : Value
  | bool : Bool → Value
  | num : Int → Value
  | str : String → Value
  | arr : List Value → Value
  | obj : List (String × Value) → Value
deriving Repr

/-- A document: a JavaScript object, i.e. an ordered list of key/value pairs
(keys of genuine JS objects never repeat). -/
abbrev Doc := List (String × Value)

mutual

/-- Structural equality on values, modelling the equality used by the store's
equality predicate (`where(field, eq, value)`). -/
def valueBeq : Value → Value → Bool
  | .undefined, .undefined => true
  | .nul, .nul => true
  | .bool a, .bool b => a == b
  | .num a, .num b => a == b
  | .str a, .str b => a == b
  | .arr a, .arr b => valueListBeq a b
  | .obj a, .obj b => valueObjBeq a b
  | _, _ => false

def valueListBeq : List Value → List Value → Bool
  | [], [] => true
  | a :: as, b :: bs => valueBeq a b && valueListBeq as bs
  | _, _ => false

def valueObjBeq : List (String × Value) → List (String × Value) → Bool
  | [], [] => true
  | (k1, v1) :: as, (k2, v2) :: bs => k1 == k2 && valueBeq v1 v2 && valueObjBeq as bs
  | _, _ => false

end

/-- First binding of a key in a string-keyed association list. -/
def assocFind {α : Type} (l : List (String × α)) (k : String) : Option α :=
  (l.find? (fun kv => kv.1 == k)).map (fun kv => kv.2)

/-- Keyed update of a string-keyed association list: overwrite in place when
the key exists, append otherwise. -/
def assocPut {α : Type} (l : List (String × α)) (k : String) (v : α) : List (String × α) :=
  if (assocFind l k).isSome then
    l.map (fun kv => if kv.1 == k then (k, v) else kv)
  else
    l ++ [(k, v)]

/-- Binding of a key in a document (JS objects have unique keys, so the first
binding is the binding). -/
def lookupKey (d : Doc) (k : String) : Option Value :=
  assocFind d k

/-- Property access `d[k]`: `undefined` when the key is absent. -/
def jsGet (d : Doc) (k : String) : Value :=
  (lookupKey d k).getD .undefined

/-- Property access on an arbitrary value; non-objects yield `undefined`. -/
def vGet (v : Value) (k : String) : Value :=
  match v with
  | .obj d => jsGet d k
  | _ => .undefined

/-- JavaScript truthiness of a value. -/
def truthy : Value → Bool
  | .undefined => false
  | .nul => false
  | .bool b => b
  | .num n => n != 0
  | .str s => s != ""
  | .arr _ => true
  | .obj _ => true

/-- Read a value as a string id. The source only ever does this where the
declared types guarantee a string. -/
def strOf : Value → String
  | .str s => s
  | _ => ""

/-- Read a value as an array (used for `.map` over typed array fields and for
the `(xs \x7c\x7c []).map` pattern); non-arrays yield the empty list. -/
def jsArray : Value → List Value
  | .arr l => l
  | _ => []

/-- Numeric reading of a value, as in the `a[key] - b[key]` comparators. -/
def toNum : Value → Int
  | .num n => n
  | _ => 0

/-- Time value of a stored date, modelling `new Date(x).getTime()`; the model
represents date strings by their numeric time value. -/
def toTime : Value → Int
  | .num n => n
  | _ => 0

/-- JavaScript property assignment `d[k] = v`: overwrite in place when the key
exists, append otherwise. -/
def setKey (d : Doc) (k : String) (v : Value) : Doc :=
  assocPut d k v

/-- JavaScript `delete d[k]`. -/
def deleteKey (d : Doc) (k : String) : Doc :=
  d.filter (fun kv => kv.1 != k)

/-- Object spread `\x7b ...base (already built), ...src \x7d`: assign the
entries of `src` into `base` left to right. -/
def spreadInto (base : Doc) (src : Doc) : Doc :=
  src.foldl (fun acc kv => setKey acc kv.1 kv.2) base

/-- Model of `sortItems(items, key, true)`: stable JS `Array.sort` with
comparator `new Date(b[key]).getTime() - new Date(a[key]).getTime()`,
i.e. descending by time value. -/
def sortItemsDate (key : String) (items : List Doc) : List Doc :=
  items.mergeSort (fun a b => decide (toTime (jsGet b key) ≤ toTime (jsGet a key)))

/-- Model of `sortItems(items, key)`: stable JS `Array.sort` with comparator
`a[key] - b[key]`, i.e. ascending numeric. -/
def sortItemsNum (key : String) (items : List Doc) : List Doc :=
  items.mergeSort (fun a b => decide (toNum (jsGet a key) ≤ toNum (jsGet b key)))

/-- Model of `[...products].sort((a, b) => a.index - b.index)` over the
elements of an upsell's `products` array. -/
def sortValuesByIndex (l : List Value) : List Value :=
  l.mergeSort (fun a b => decide (toNum (vGet a "index") ≤ toNum (vGet b "index")))

/-- Model of JavaScript `String.prototype.toUpperCase` (an executable
list-based model of the library function). -/
def jsToUpper (s : String) : String :=
  ⟨s.data.map Char.toUpper⟩

/-- Model of JavaScript `String.prototype.trim`: strip leading and trailing
whitespace (an executable list-based model of the library function). -/
def jsTrim (s : String) : String :=
  ⟨((s.data.dropWhile Char.isWhitespace).reverse.dropWhile Char.isWhitespace).reverse⟩

/-- The filter applied to raw `fields`/`ids` inputs:
`typeof x === "string" && x.trim() !== ""`. -/
def isNonblankString : Value → Bool
  | .str s => jsTrim s != ""
  | _ => false

/-- Shared sanitation of a raw `fields`/`ids` option: an array is filtered to
its non-blank string entries; any non-array yields the empty list. -/
def sanitizeStringList (v : Value) : List String :=
  match v with
  | .arr l => (l.filter isNonblankString).map strOf
  | _ => []

/-- Valid visibility flags, as listed in `sanitizeMultiItemOptions`. -/
def validVisibilityFlags : List String := ["DRAFT", "PUBLISHED", "HIDDEN"]

structure SanitizedMultiItemOptions where
  ids : List String
  fields : List String
  visibility : Option String
deriving Repr

/-- Embeds `sanitizeSingleItemOptions`: trim the id, sanitize the fields. -/
def sanitizeSingleItemOptions (id : String) (fields : Value) : String × List String :=
  (jsTrim id, sanitizeStringList fields)

/-- Embeds `sanitizeMultiItemOptions`: sanitize `ids` and `fields`; a string
visibility is uppercased and kept only when it is a valid flag. -/
def sanitizeMultiItemOptions (ids fields visibility : Value) : SanitizedMultiItemOptions :=
  { ids := sanitizeStringList ids
    fields := sanitizeStringList fields
    visibility :=
      match visibility with
      | .str s => if validVisibilityFlags.contains (jsToUpper s) then some (jsToUpper s) else none
      | _ => none }

/-- Embeds `sanitizeBaseOptions`: sanitize `fields`, pass `visibility`
through unvalidated. -/
def sanitizeBaseOptions (fields visibility : Value) : List String × Value :=
  (sanitizeStringList fields, visibility)

/-- The document store: one partition per entity type, each an ordered list of
`(document id, document)` pairs. -/
structure Store where
  products : List (String × Doc)
  collections : List (String × Doc)
  upsells : List (String × Doc)
  categories : List (String × Doc)
  settings : List (String × Doc)
  pageHero : List (String × Doc)
deriving Repr

/-- Point lookup by document id in a partition. -/
def getById (part : List (String × Doc)) (id : String) : Option Doc :=
  assocFind part id

/-- Full overwrite `setDoc` at a fixed id: replace the document when the id
exists, create it otherwise. -/
def putById (part : List (String × Doc)) (id : String) (d : Doc) : List (String × Doc) :=
  assocPut part id d

/-- Query restricted by the equality predicate `visibility == v`. -/
def filterVisibilityEq (part : List (String × Doc)) (v : Value) : List (String × Doc) :=
  part.filter (fun p => valueBeq (jsGet p.2 "visibility") v)

/-- Query of a partition with the raw (unvalidated) visibility option:
`if (visibility)` adds the equality predicate, otherwise the whole partition
is returned. -/
def queryVisibilityRaw (part : List (String × Doc)) (vis : Value) : List (String × Doc) :=
  if truthy vis then filterVisibilityEq part vis else part

/-- Query of a partition with a sanitized visibility option. -/
def queryVisibilitySan (part : List (String × Doc)) (vis : Option String) : List (String × Doc) :=
  match vis with
  | some v => filterVisibilityEq part (.str v)
  | none => part

/-- Store effects the specification talks about: point reads, partition
queries, and document writes. -/
inductive StoreOp where
  | pointGet (partition id : String)
  | runQuery (partition : String)
  | putDoc (partition id : String)
deriving DecidableEq, Repr

/-- Field selection loop: for each requested field present on the stored
document, copy it onto the accumulating result object. -/
def selectFields (fields : List String) (data : Doc) : Doc :=
  fields.foldl
    (fun acc f =>
      match lookupKey data f with
      | some v => setKey acc f v
      | none => acc)
    []

/-- Projection rule of the single/multi product fetches: non-empty `fields`
selects the requested present fields, empty `fields` keeps the whole
document. -/
def projectFields (fields : List String) (data : Doc) : Doc :=
  if fields.isEmpty then data else selectFields fields data

/-- Embeds `getProduct`: empty trimmed id short-circuits to `null` with no
store access; otherwise one point lookup, then projection merged after
`id`. -/
def getProduct (s : Store) (rawId : String) (rawFields : Value) : Option Doc × List StoreOp :=
  let o := sanitizeSingleItemOptions rawId rawFields
  if o.1 = "" then (none, [])
  else
    match getById s.products o.1 with
    | none => (none, [.pointGet "products" o.1])
    | some data =>
      (some (spreadInto [("id", .str o.1)] (projectFields o.2 data)), [.pointGet "products" o.1])

/-- Result object of one document in `getProducts`/`getProductsByIds`:
`\x7b id, ...selectedFields, updatedAt: data["updatedAt"],
visibility: data["visibility"] \x7d`. -/
def productEntry (fields : List String) (p : String × Doc) : Doc :=
  setKey
    (setKey (spreadInto [("id", .str p.1)] (projectFields fields p.2))
      "updatedAt" (jsGet p.2 "updatedAt"))
    "visibility" (jsGet p.2 "visibility")

/-- Embeds `getProducts`: query the products partition (optionally restricted
by the raw visibility), `null` on an empty result, otherwise project each
document and sort by `updatedAt` descending. -/
def getProducts (s : Store) (rawFields rawVisibility : Value) : Option (List Doc) :=
  let o := sanitizeBaseOptions rawFields rawVisibility
  let docs := queryVisibilityRaw s.products o.2
  if docs.isEmpty then none
  else some (sortItemsDate "updatedAt" (docs.map (productEntry o.1)))

/-- Embeds `getProductsByIds`: empty sanitized ids short-circuits to `null`
with no query; otherwise one membership query (optionally restricted by the
sanitized visibility), `null` on an empty result, projection and sort as in
`getProducts`. -/
def getProductsByIds (s : Store) (rawIds rawFields rawVisibility : Value) :
    Option (List Doc) × List StoreOp :=
  let o := sanitizeMultiItemOptions rawIds rawFields rawVisibility
  if o.ids.isEmpty then (none, [])
  else
    let docs := queryVisibilitySan (s.products.filter (fun p => o.ids.contains p.1)) o.visibility
    if docs.isEmpty then (none, [.runQuery "products"])
    else (some (sortItemsDate "updatedAt" (docs.map (productEntry o.fields))), [.runQuery "products"])

/-- Resolution of one entry of an upsell's `products` list inside
`getProductWithUpsell`: `null` when the referenced product document is
absent, otherwise the snapshot object built from the upsell entry
(`index`, `name`) and the fetched product document (`id`, `slug`,
`images.main`, `pricing.basePrice`). -/
def resolveUpsellItem (s : Store) (item : Value) : Option Value :=
  match getById s.products (strOf (vGet item "id")) with
  | none => none
  | some pdata =>
    some (.obj
      [("index", vGet item "index"),
       ("name", vGet item "name"),
       ("id", jsGet pdata "id"),
       ("slug", jsGet pdata "slug"),
       ("mainImage", vGet (jsGet pdata "images") "main"),
       ("basePrice", vGet (jsGet pdata "pricing") "basePrice")])

/-- Embeds `getProductWithUpsell`: fetch the product via `getProduct`; return
it unchanged when it is `null` or its `upsell` field is falsy; return it
plain when the referenced upsell document is absent; otherwise resolve every
upsell product entry, dropping the unresolvable ones, and replace the
product's `upsell` field by the resolved upsell object. -/
def getProductWithUpsell (s : Store) (rawId : String) (rawFields : Value) : Option Doc :=
  match (getProduct s rawId rawFields).1 with
  | none => none
  | some product =>
    if ¬ truthy (jsGet product "upsell") then some product
    else
      match getById s.upsells (strOf (jsGet product "upsell")) with
      | none => some product
      | some upsellData =>
        let resolved := (jsArray (jsGet upsellData "products")).filterMap (resolveUpsellItem s)
        let upsellDetails := setKey (spreadInto [] upsellData) "products" (.arr resolved)
        some (setKey (spreadInto [] product) "upsell" (.obj upsellDetails))

/-- Embeds `getCollection`: same shape as `getProduct` over the collections
partition. -/
def getCollection (s : Store) (rawId : String) (rawFields : Value) : Option Doc × List StoreOp :=
  let o := sanitizeSingleItemOptions rawId rawFields
  if o.1 = "" then (none, [])
  else
    match getById s.collections o.1 with
    | none => (none, [.pointGet "collections" o.1])
    | some data =>
      (some (spreadInto [("id", .str o.1)] (projectFields o.2 data)), [.pointGet "collections" o.1])

/-- Denormalized expansion of a collection's `products` references inside
`getCollections`: each reference is independently fetched and the result is
`\x7b ...productDoc.data(), id: ref.id, index: ref.index \x7d`; an absent
document spreads as nothing, leaving exactly `id` and `index`. -/
def expandCollectionProducts (s : Store) (refs : List Value) : List Value :=
  refs.map (fun r =>
    match getById s.products (strOf (vGet r "id")) with
    | none => .obj [("id", vGet r "id"), ("index", vGet r "index")]
    | some d => .obj (setKey (setKey (spreadInto [] d) "id" (vGet r "id")) "index" (vGet r "index")))

/-- Result object of one document in `getCollections`: field selection (with
no empty-`fields` fallback to the full document), optional `products`
expansion when `"products"` is requested, then
`\x7b id, ...selected, updatedAt, index, visibility, collectionType \x7d`. -/
def collectionEntry (s : Store) (fields : List String) (p : String × Doc) : Doc :=
  let data := p.2
  let sel :=
    if fields.contains "products" then
      setKey (selectFields fields data) "products"
        (.arr (expandCollectionProducts s (jsArray (jsGet data "products"))))
    else selectFields fields data
  setKey
    (setKey
      (setKey
        (setKey (spreadInto [("id", .str p.1)] sel) "updatedAt" (jsGet data "updatedAt"))
        "index" (jsGet data "index"))
      "visibility" (jsGet data "visibility"))
    "collectionType" (jsGet data "collectionType")

/-- Embeds `getCollections`: query the collections partition (optionally
restricted by the raw visibility), `null` on an empty result, otherwise build
each result object and sort by `index` ascending. -/
def getCollections (s : Store) (rawFields rawVisibility : Value) : Option (List Doc) :=
  let o := sanitizeBaseOptions rawFields rawVisibility
  let docs := queryVisibilityRaw s.collections o.2
  if docs.isEmpty then none
  else some (sortItemsNum "index" (docs.map (collectionEntry s o.1)))

/-- Embeds `getUpsells`: map the whole upsells partition to
`\x7b id, ...data \x7d` objects and sort by `updatedAt` descending; there is
no empty-result check, so the empty partition yields an empty list. -/
def getUpsells (s : Store) : Option (List Doc) :=
  some (sortItemsDate "updatedAt" (s.upsells.map (fun p => spreadInto [("id", .str p.1)] p.2)))

/-- Embeds `getUpsell`: one point lookup with the raw (unsanitized) id; on a
present document, the `products` sub-list (empty when falsy) is re-sorted by
`index` ascending and merged as `\x7b id, ...data, products: sorted \x7d`. -/
def getUpsell (s : Store) (id : String) : Option Doc × List StoreOp :=
  match getById s.upsells id with
  | none => (none, [.pointGet "upsells" id])
  | some data =>
    let sortedProducts :=
      if truthy (jsGet data "products") then sortValuesByIndex (jsArray (jsGet data "products"))
      else []
    (some (setKey (spreadInto [("id", .str id)] data) "products" (.arr sortedProducts)),
     [.pointGet "upsells" id])

/-- Hardcoded default page hero document written on first read. -/
def defaultPageHero : Doc :=
  [("images", .obj [("desktop", .str ""), ("mobile", .str "")]),
   ("title", .str ""),
   ("destinationUrl", .str ""),
   ("visibility", .str "HIDDEN")]

/-- Embeds `getPageHero`: point lookup at the fixed id `"homepageHero"`; when
absent, write the hardcoded default and return it with `id` attached; when
present, return `\x7b id, ...data \x7d` without writing. -/
def getPageHero (s : Store) : Doc × Store × List StoreOp :=
  match getById s.pageHero "homepageHero" with
  | none =>
    (spreadInto [("id", .str "homepageHero")] defaultPageHero,
     { s with pageHero := putById s.pageHero "homepageHero" defaultPageHero },
     [.pointGet "pageHero" "homepageHero", .putDoc "pageHero" "homepageHero"])
  | some data =>
    (spreadInto [("id", .str "homepageHero")] data, s, [.pointGet "pageHero" "homepageHero"])

/-- Embeds `getCategories`: `null` on an empty partition, otherwise
`\x7b id, ...data \x7d` objects sorted by `index` ascending. -/
def getCategories (s : Store) : Option (List Doc) :=
  if s.categories.isEmpty then none
  else some (sortItemsNum "index" (s.categories.map (fun p => spreadInto [("id", .str p.1)] p.2)))

/-- Hardcoded default settings document. -/
def defaultSettings : Doc :=
  [("categorySection", .obj [("visibility", .str "HIDDEN")])]

/-- Embeds `getSettings`: when the singleton document is absent, write and
return the default; when present, add the default keys missing from it, then
delete its keys absent from the default schema, writing the reconciled
document back only when one of the two loops changed something. -/
def getSettings (s : Store) : Doc × Store × List StoreOp :=
  match getById s.settings "defaultSettings" with
  | none =>
    (defaultSettings,
     { s with settings := putById s.settings "defaultSettings" defaultSettings },
     [.pointGet "settings" "defaultSettings", .putDoc "settings" "defaultSettings"])
  | some data =>
    let step1 :=
      defaultSettings.foldl
        (fun st kv => if (lookupKey st.1 kv.1).isSome then st else (st.1 ++ [kv], true))
        (data, false)
    let step2 :=
      (step1.1.map Prod.fst).foldl
        (fun st k => if (lookupKey defaultSettings k).isSome then st else (deleteKey st.1 k, true))
        step1
    if step2.2 then
      (step2.1,
       { s with settings := putById s.settings "defaultSettings" step2.1 },
       [.pointGet "settings" "defaultSettings", .putDoc "settings" "defaultSettings"])
    else
      (step2.1, s, [.pointGet "settings" "defaultSettings"])

/-- Claim-side statement of the field-projection rule of the specification:
empty `fields` means the full document, non-empty `fields` means exactly the
requested fields that are present on the document. -/
def projectedValue (fields : List String) (data : Doc) (k : String) : Option Value :=
  if fields = [] then lookupKey data k
  else if k ∈ fields then lookupKey data k else none

/-! ### Concrete stores used as test fixtures -/

/-- A store with every partition empty. -/
def emptyStore : Store := ⟨[], [], [], [], [], []⟩

/-- A stored product document (current name "New"). -/
def pdocC : Doc :=
  [("id", .str "p1"), ("name", .str "New"), ("slug", .str "s"),
   ("images", .obj [("main", .str "m")]), ("pricing", .obj [("basePrice", .num 5)]),
   ("upsell", .str "u1"), ("updatedAt", .num 1), ("visibility", .str "PUBLISHED")]

/-- An upsell product snapshot referencing the stored product `p1` under the
stale name "Old". -/
def uitem0 : Value := .obj [("index", .num 0), ("id", .str "p1"), ("name", .str "Old")]

/-- An upsell product snapshot referencing a deleted product. -/
def uitem1 : Value := .obj [("index", .num 1), ("id", .str "gone"), ("name", .str "G")]

/-- A stored upsell document. -/
def udocC : Doc :=
  [("updatedAt", .num 2), ("visibility", .str "PUBLISHED"),
   ("products", .arr [uitem0, uitem1])]

/-- A store holding one product and one upsell. -/
def st1C : Store := { emptyStore with products := [("p1", pdocC)], upsells := [("u1", udocC)] }

/-- A stored collection document carrying an extra `title` field. -/
def cdocC : Doc :=
  [("title", .str "T"), ("index", .num 0), ("updatedAt", .num 1),
   ("visibility", .str "PUBLISHED"), ("collectionType", .str "x")]

/-- The store `st1C` extended with one collection. -/
def st2C : Store := { st1C with collections := [("c1", cdocC)] }

/-- A store with two categories stored in non-sorted order. -/
def catStore : Store :=
  { emptyStore with categories := [("a", [("index", .num 2)]), ("b", [("index", .num 1)])] }

/-- A store whose settings document carries only a key that is absent from the
default schema. -/
def settingsStore : Store :=
  { emptyStore with settings := [("defaultSettings", [("junk", Value.num 1)])] }

/-- A store with a single product carrying no upsell reference. -/
def wprodStore : Store :=
  { emptyStore with products := [("p0", [("name", Value.str "A")])] }

/-- A stored collection document whose `products` list references a product
that does not exist in the store. -/
def wcdoc : Doc :=
  [("index", .num 0), ("products", .arr [.obj [("id", .str "nope"), ("index", .num 3)]])]

/-- A store holding only the collection `wcdoc`. -/
def wcollStore : Store := { emptyStore with collections := [("c1", wcdoc)] }

/-- Extraction helper: the resolved `upsell.products` array of a
`getProductWithUpsell` result. -/
def upsellProductsOf (r : Option Doc) : List Value :=
  match r with
  | some d => jsArray (vGet (jsGet d "upsell") "products")
  | none => []

/-- Extraction helper: the first document of a list result. -/
def headDocOf (r : Option (List Doc)) : Doc :=
  (r.getD []).headD []

/-! ### Association-list lemmas -/

theorem assocFind_nil {α : Type} (k : String) : assocFind ([] : List (String × α)) k = none := rfl

theorem assocFind_cons {α : Type} (k0 : String) (v0 : α) (t : List (String × α)) (k : String) :
    assocFind ((k0, v0) :: t) k = if k0 = k then some v0 else assocFind t k := by
  unfold assocFind
  by_cases h : k0 = k
  · rw [List.find?_cons_of_pos _ (by simpa using h)]
    simp [h]
  · rw [List.find?_cons_of_neg _ (by simpa using h)]
    simp [h]

theorem assocFind_append {α : Type} (d1 d2 : List (String × α)) (k : String) :
    assocFind (d1 ++ d2) k = (assocFind d1 k).orElse (fun _ => assocFind d2 k) := by
  induction d1 with
  | nil => simp [assocFind_nil]
  | cons kv t ih =>
    rw [List.cons_append]
    obtain ⟨k0, v0⟩ := kv
    rw [assocFind_cons, assocFind_cons]
    by_cases h : k0 = k
    · simp [h]
    · simp [h, ih]

theorem assocFind_isSome_iff {α : Type} (d : List (String × α)) (k : String) :
    (assocFind d k).isSome ↔ k ∈ d.map Prod.fst := by
  induction d with
  | nil => simp [assocFind_nil]
  | cons kv t ih =>
    obtain ⟨k0, v0⟩ := kv
    rw [assocFind_cons]
    by_cases h : k0 = k
    · simp [h]
    · simp [h, ih, Ne.symm h]

theorem assocFind_replace {α : Type} (d : List (String × α)) (k : String) (v : α) (k' : String) :
    assocFind (d.map (fun kv => if kv.1 == k then (k, v) else kv)) k' =
      if k = k' then (assocFind d k).map (fun _ => v) else assocFind d k' := by
  induction d with
  | nil => simp [assocFind_nil]
  | cons kv t ih =>
    obtain ⟨k0, v0⟩ := kv
    rw [List.map_cons]
    by_cases h0 : k0 = k
    · subst h0
      rw [show (if (k0 == k0) = true then (k0, v) else (k0, v0)) = (k0, v) by simp]
      rw [assocFind_cons, assocFind_cons, ih]
      by_cases h1 : k0 = k'
      · simp [assocFind_cons, h1]
      · simp [assocFind_cons, h1]
    · rw [show (if (k0 == k) = true then (k, v) else (k0, v0)) = (k0, v0) by simp [h0]]
      rw [assocFind_cons, assocFind_cons, ih]
      by_cases h1 : k0 = k'
      · subst h1
        have hkk : ¬ k = k0 := fun h => h0 h.symm
        simp [assocFind_cons, hkk]
      · simp [assocFind_cons, h0, h1]

theorem assocFind_assocPut {α : Type} (d : List (String × α)) (k : String) (v : α) (k' : String) :
    assocFind (assocPut d k v) k' = if k = k' then some v else assocFind d k' := by
  unfold assocPut
  by_cases hs : (assocFind d k).isSome
  · rw [if_pos hs, assocFind_replace]
    obtain ⟨w, hw⟩ := Option.isSome_iff_exists.mp hs
    simp [hw]
  · rw [if_neg hs, assocFind_append]
    have hn : assocFind d k = none := Option.not_isSome_iff_eq_none.mp hs
    by_cases h1 : k = k'
    · subst h1
      simp [hn, assocFind_cons]
    · cases h2 : assocFind d k' with
      | none => simp [assocFind_cons, h1, assocFind_nil]
      | some w => simp [h2, h1]

theorem keys_assocPut {α : Type} (d : List (String × α)) (k : String) (v : α) :
    (assocPut d k v).map Prod.fst =
      if (assocFind d k).isSome then d.map Prod.fst else d.map Prod.fst ++ [k] := by
  unfold assocPut
  by_cases hs : (assocFind d k).isSome
  · rw [if_pos hs, if_pos hs, List.map_map]
    apply List.map_congr_left
    intro kv _
    by_cases h : kv.1 = k
    · simp [h]
    · simp [h]
  · rw [if_neg hs, if_neg hs, List.map_append]
    rfl

theorem nodup_keys_assocPut {α : Type} (d : List (String × α)) (k : String) (v : α)
    (h : (d.map Prod.fst).Nodup) : ((assocPut d k v).map Prod.fst).Nodup := by
  rw [keys_assocPut]
  by_cases hs : (assocFind d k).isSome
  · rw [if_pos hs]; exact h
  · rw [if_neg hs]
    have hk : k ∉ d.map Prod.fst := by
      rw [← assocFind_isSome_iff]
      simpa using hs
    simp [List.nodup_append, h, hk]

theorem lookupKey_nil (k : String) : lookupKey [] k = none := rfl

theorem lookupKey_cons (k0 : String) (v0 : Value) (t : Doc) (k : String) :
    lookupKey ((k0, v0) :: t) k = if k0 = k then some v0 else lookupKey t k :=
  assocFind_cons k0 v0 t k

theorem lookupKey_append (d1 d2 : Doc) (k : String) :
    lookupKey (d1 ++ d2) k = (lookupKey d1 k).orElse (fun _ => lookupKey d2 k) :=
  assocFind_append d1 d2 k

theorem lookupKey_isSome_iff (d : Doc) (k : String) :
    (lookupKey d k).isSome ↔ k ∈ d.map Prod.fst :=
  assocFind_isSome_iff d k

theorem lookupKey_setKey (d : Doc) (k : String) (v : Value) (k' : String) :
    lookupKey (setKey d k v) k' = if k = k' then some v else lookupKey d k' :=
  assocFind_assocPut d k v k'

theorem getById_putById (part : List (String × Doc)) (id : String) (d : Doc) (id' : String) :
    getById (putById part id d) id' = if id = id' then some d else getById part id' :=
  assocFind_assocPut part id d id'

theorem lookupKey_not_mem (d : Doc) (k : String) (h : k ∉ d.map Prod.fst) :
    lookupKey d k = none := by
  have := (lookupKey_isSome_iff d k).not.mpr h
  simpa using this

/-- Spread (`spreadInto`) looks up in the source first provided the source has
no repeated keys, which holds for every genuine JS object. -/
theorem lookupKey_spreadInto (base src : Doc) (k : String)
    (h : (src.map Prod.fst).Nodup) :
    lookupKey (spreadInto base src) k = (lookupKey src k).orElse (fun _ => lookupKey base k) := by
  induction src generalizing base with
  | nil => simp [spreadInto, lookupKey_nil]
  | cons kv t ih =>
    obtain ⟨k0, v0⟩ := kv
    simp only [List.map_cons, List.nodup_cons] at h
    obtain ⟨hk0, ht⟩ := h
    show lookupKey (spreadInto (setKey base k0 v0) t) k = _
    rw [ih _ ht, lookupKey_cons, lookupKey_setKey]
    by_cases h1 : k0 = k
    · subst h1
      rw [lookupKey_not_mem t k0 hk0]
      simp
    · simp [h1]

/-! ### Projection lemmas -/

theorem lookupKey_selectFields_aux (data : Doc) (fields : List String) (acc : Doc) (k : String) :
    lookupKey
      (fields.foldl
        (fun acc f =>
          match lookupKey data f with
          | some v => setKey acc f v
          | none => acc)
        acc) k =
      if k ∈ fields ∧ (lookupKey data k).isSome then lookupKey data k else lookupKey acc k := by
  induction fields generalizing acc with
  | nil => simp
  | cons f rest ih =>
    rw [List.foldl_cons, ih]
    by_cases hmem : k ∈ rest ∧ (lookupKey data k).isSome
    · simp [hmem, List.mem_cons.mpr (Or.inr hmem.1), hmem.2]
    · by_cases hfk : f = k
      · subst hfk
        cases hf : lookupKey data f with
        | some v =>
          simp only [hf]
          rw [lookupKey_setKey]
          simp [hf]
        | none =>
          simp only [hf]
          have hcond : ¬((f = f ∨ f ∈ rest) ∧ (lookupKey data f).isSome = true) := by
            rintro ⟨_, hs⟩
            rw [hf] at hs
            simp at hs
          simp [hmem, hcond]
      · have hcond : ¬((k = f ∨ k ∈ rest) ∧ (lookupKey data k).isSome = true) := by
          rintro ⟨hor, hs⟩
          rcases hor with h | h
          · exact hfk h.symm
          · exact hmem ⟨h, hs⟩
        cases hf : lookupKey data f with
        | some v =>
          simp only [hf]
          rw [lookupKey_setKey]
          simp [hfk, hmem, hcond]
        | none =>
          simp only [hf]
          simp [hmem, hcond]

theorem lookupKey_selectFields (fields : List String) (data : Doc) (k : String) :
    lookupKey (selectFields fields data) k =
      if k ∈ fields ∧ (lookupKey data k).isSome then lookupKey data k else none :=
  lookupKey_selectFields_aux data fields [] k

theorem lookupKey_projectFields (fields : List String) (data : Doc) (k : String) :
    lookupKey (projectFields fields data) k = projectedValue fields data k := by
  unfold projectFields projectedValue
  by_cases he : fields = []
  · simp [he]
  · rw [if_neg (by simpa using he), if_neg he, lookupKey_selectFields]
    by_cases hm : k ∈ fields
    · by_cases hs : (lookupKey data k).isSome
      · simp [hm, hs]
      · have : lookupKey data k = none := by simpa using hs
        simp [hm, hs, this]
    · simp [hm]

theorem nodup_keys_selectFields_aux (data : Doc) (fields : List String) (acc : Doc)
    (h : (acc.map Prod.fst).Nodup) :
    ((fields.foldl
      (fun acc f =>
        match lookupKey data f with
        | some v => setKey acc f v
        | none => acc)
      acc).map Prod.fst).Nodup := by
  induction fields generalizing acc with
  | nil => simpa using h
  | cons f rest ih =>
    rw [List.foldl_cons]
    cases hf : lookupKey data f with
    | some v => exact ih _ (nodup_keys_assocPut acc f v h)
    | none => exact ih _ h

theorem nodup_keys_selectFields (fields : List String) (data : Doc) :
    ((selectFields fields data).map Prod.fst).Nodup :=
  nodup_keys_selectFields_aux data fields [] (by simp)

theorem nodup_keys_projectFields (fields : List String) (data : Doc)
    (h : (data.map Prod.fst).Nodup) :
    ((projectFields fields data).map Prod.fst).Nodup := by
  unfold projectFields
  by_cases he : fields.isEmpty
  · simpa [he] using h
  · simpa [he] using nodup_keys_selectFields fields data

/-! ### Sorting lemmas -/

theorem pairwise_sortItemsDate (key : String) (items : List Doc) :
    (sortItemsDate key items).Pairwise
      (fun a b => toTime (jsGet b key) ≤ toTime (jsGet a key)) := by
  have h := @List.sorted_mergeSort Doc
    (fun a b => decide (toTime (jsGet b key) ≤ toTime (jsGet a key)))
    (fun a b c hab hbc => by
      simp only [decide_eq_true_eq] at *
      omega)
    (fun a b => by
      simp only [Bool.or_eq_true, decide_eq_true_eq]
      omega)
    items
  exact h.imp (fun hab => by simpa using hab)

theorem pairwise_sortItemsNum (key : String) (items : List Doc) :
    (sortItemsNum key items).Pairwise
      (fun a b => toNum (jsGet a key) ≤ toNum (jsGet b key)) := by
  have h := @List.sorted_mergeSort Doc
    (fun a b => decide (toNum (jsGet a key) ≤ toNum (jsGet b key)))
    (fun a b c hab hbc => by
      simp only [decide_eq_true_eq] at *
      omega)
    (fun a b => by
      simp only [Bool.or_eq_true, decide_eq_true_eq]
      omega)
    items
  exact h.imp (fun hab => by simpa using hab)

theorem pairwise_sortValuesByIndex (l : List Value) :
    (sortValuesByIndex l).Pairwise
      (fun a b => toNum (vGet a "index") ≤ toNum (vGet b "index")) := by
  have h := @List.sorted_mergeSort Value
    (fun a b => decide (toNum (vGet a "index") ≤ toNum (vGet b "index")))
    (fun a b c hab hbc => by
      simp only [decide_eq_true_eq] at *
      omega)
    (fun a b => by
      simp only [Bool.or_eq_true, decide_eq_true_eq]
      omega)
    l
  exact h.imp (fun hab => by simpa using hab)

theorem mem_sortItemsDate (key : String) (items : List Doc) (d : Doc) :
    d ∈ sortItemsDate key items ↔ d ∈ items := List.mem_mergeSort

theorem mem_sortItemsNum (key : String) (items : List Doc) (d : Doc) :
    d ∈ sortItemsNum key items ↔ d ∈ items := List.mem_mergeSort

theorem length_sortItemsDate (key : String) (items : List Doc) :
    (sortItemsDate key items).length = items.length := List.length_mergeSort items

theorem length_sortItemsNum (key : String) (items : List Doc) :
    (sortItemsNum key items).length = items.length := List.length_mergeSort items

/-- Stability of the upsell products sort: for every index value, the sub-list
of entries carrying that index is unchanged, i.e. ties keep their original
relative order. -/
theorem filter_sortValuesByIndex (l : List Value) (n : Int) :
    (sortValuesByIndex l).filter (fun v => toNum (vGet v "index") == n) =
      l.filter (fun v => toNum (vGet v "index") == n) := by
  have htrans : ∀ (a b c : Value),
      decide (toNum (vGet a "index") ≤ toNum (vGet b "index")) →
      decide (toNum (vGet b "index") ≤ toNum (vGet c "index")) →
      decide (toNum (vGet a "index") ≤ toNum (vGet c "index")) := by
    intro a b c hab hbc
    simp only [decide_eq_true_eq] at *
    omega
  have htotal : ∀ (a b : Value),
      decide (toNum (vGet a "index") ≤ toNum (vGet b "index")) ||
      decide (toNum (vGet b "index") ≤ toNum (vGet a "index")) := by
    intro a b
    simp only [Bool.or_eq_true, decide_eq_true_eq]
    omega
  have hpair : (l.filter (fun v => toNum (vGet v "index") == n)).Pairwise
      (fun a b => decide (toNum (vGet a "index") ≤ toNum (vGet b "index"))) := by
    apply List.pairwise_of_forall_mem_list
    intro a ha b hb
    have ha' := (List.mem_filter.mp ha).2
    have hb' := (List.mem_filter.mp hb).2
    simp only [beq_iff_eq] at ha' hb'
    simp [ha', hb']
  have hsub : List.Sublist (l.filter (fun v => toNum (vGet v "index") == n)) (sortValuesByIndex l) :=
    List.sublist_mergeSort htrans htotal hpair (List.filter_sublist l)
  have hsub2 : List.Sublist (l.filter (fun v => toNum (vGet v "index") == n))
      ((sortValuesByIndex l).filter (fun v => toNum (vGet v "index") == n)) := by
    have := hsub.filter (fun v => toNum (vGet v "index") == n)
    rwa [List.filter_filter, show
      (fun v => (toNum (vGet v "index") == n) && (toNum (vGet v "index") == n)) =
        (fun v => toNum (vGet v "index") == n) from funext (fun v => Bool.and_self _)] at this
  have hlen : ((sortValuesByIndex l).filter (fun v => toNum (vGet v "index") == n)).length =
      (l.filter (fun v => toNum (vGet v "index") == n)).length :=
    ((List.mergeSort_perm l _).filter _).length_eq
  exact (hsub2.eq_of_length hlen.symm).symm

/-- Length of a `filterMap` equals the number of elements on which the
function succeeds. -/
theorem length_filterMap_isSome {α β : Type} (f : α → Option β) (l : List α) :
    (l.filterMap f).length = (l.filter (fun a => (f a).isSome)).length := by
  induction l with
  | nil => simp
  | cons a t ih =>
    cases hf : f a with
    | none => simp [List.filterMap_cons, hf, ih]
    | some b => simp [List.filterMap_cons, hf, ih]

theorem mergeSort_singleton {α : Type} (a : α) (le : α → α → Bool) :
    List.mergeSort [a] le = [a] :=
  List.perm_singleton.mp (List.mergeSort_perm [a] le)

/-! ### Entry-shape lemmas -/

theorem lookupKey_productEntry (fields : List String) (p : String × Doc) (k : String)
    (h : (p.2.map Prod.fst).Nodup) :
    lookupKey (productEntry fields p) k =
      if k = "visibility" then some (jsGet p.2 "visibility")
      else if k = "updatedAt" then some (jsGet p.2 "updatedAt")
      else if k = "id" then (projectedValue fields p.2 "id").orElse (fun _ => some (.str p.1))
      else projectedValue fields p.2 k := by
  unfold productEntry
  rw [lookupKey_setKey]
  by_cases hv : k = "visibility"
  · simp [hv]
  · rw [if_neg (fun hh => hv hh.symm), if_neg hv, lookupKey_setKey]
    by_cases hu : k = "updatedAt"
    · simp [hu]
    · rw [if_neg (fun hh => hu hh.symm), if_neg hu]
      rw [lookupKey_spreadInto _ _ _ (nodup_keys_projectFields fields p.2 h)]
      rw [lookupKey_projectFields]
      by_cases hi : k = "id"
      · subst hi
        simp [lookupKey_cons, lookupKey_nil]
      · rw [if_neg hi]
        cases hpk : projectedValue fields p.2 k with
        | none => simp [lookupKey_cons, Ne.symm hi, lookupKey_nil]
        | some w => simp

theorem lookupKey_collectionEntry (s : Store) (fields : List String) (p : String × Doc) (k : String) :
    lookupKey (collectionEntry s fields p) k =
      if k = "collectionType" then some (jsGet p.2 "collectionType")
      else if k = "visibility" then some (jsGet p.2 "visibility")
      else if k = "index" then some (jsGet p.2 "index")
      else if k = "updatedAt" then some (jsGet p.2 "updatedAt")
      else if k = "products" then
        (if "products" ∈ fields then
          some (.arr (expandCollectionProducts s (jsArray (jsGet p.2 "products"))))
        else none)
      else if k = "id" then
        ((if k ∈ fields ∧ (lookupKey p.2 k).isSome then lookupKey p.2 k else none).orElse
          (fun _ => some (.str p.1)))
      else (if k ∈ fields ∧ (lookupKey p.2 k).isSome then lookupKey p.2 k else none) := by
  have hselnodup : (((if fields.contains "products" then
      setKey (selectFields fields p.2) "products"
        (.arr (expandCollectionProducts s (jsArray (jsGet p.2 "products"))))
    else selectFields fields p.2) : Doc).map Prod.fst).Nodup := by
    by_cases hp : "products" ∈ fields
    · rw [if_pos (List.elem_eq_true_of_mem hp)]
      exact nodup_keys_assocPut _ _ _ (nodup_keys_selectFields fields p.2)
    · rw [if_neg (fun hc => hp (List.mem_of_elem_eq_true hc))]
      exact nodup_keys_selectFields fields p.2
  unfold collectionEntry
  rw [lookupKey_setKey]
  by_cases hct : k = "collectionType"
  · simp [hct]
  · rw [if_neg (fun hh => hct hh.symm), if_neg hct, lookupKey_setKey]
    by_cases hv : k = "visibility"
    · simp [hv]
    · rw [if_neg (fun hh => hv hh.symm), if_neg hv, lookupKey_setKey]
      by_cases hx : k = "index"
      · simp [hx]
      · rw [if_neg (fun hh => hx hh.symm), if_neg hx, lookupKey_setKey]
        by_cases hu : k = "updatedAt"
        · simp [hu]
        · rw [if_neg (fun hh => hu hh.symm), if_neg hu]
          rw [lookupKey_spreadInto _ _ _ hselnodup]
          by_cases hp : fields.contains "products"
          · rw [if_pos hp, lookupKey_setKey]
            by_cases hpk : k = "products"
            · subst hpk
              simp [List.mem_of_elem_eq_true hp]
            · rw [if_neg (fun hh => hpk hh.symm), if_neg hpk, lookupKey_selectFields]
              by_cases hi : k = "id"
              · subst hi
                simp [lookupKey_cons, lookupKey_nil]
              · rw [if_neg hi]
                cases hpv : (if k ∈ fields ∧ (lookupKey p.2 k).isSome then lookupKey p.2 k else none) with
                | none => simp [lookupKey_cons, Ne.symm hi, lookupKey_nil]
                | some w => simp
          · rw [if_neg hp, lookupKey_selectFields]
            have hpm : "products" ∉ fields := fun hm => hp (List.elem_eq_true_of_mem hm)
            by_cases hpk : k = "products"
            · subst hpk
              simp [hpm, lookupKey_cons, lookupKey_nil]
            · rw [if_neg hpk]
              by_cases hi : k = "id"
              · subst hi
                simp [lookupKey_cons, lookupKey_nil]
              · rw [if_neg hi]
                cases hpv : (if k ∈ fields ∧ (lookupKey p.2 k).isSome then lookupKey p.2 k else none) with
                | none => simp [lookupKey_cons, Ne.symm hi, lookupKey_nil]
                | some w => simp

/-! ### Settings reconciliation lemmas -/

theorem settingsLoop2_doc (ks : List String) (st : Doc × Bool) :
    ((ks.foldl
      (fun st k => if (lookupKey defaultSettings k).isSome then st else (deleteKey st.1 k, true))
      st).1) =
      st.1.filter (fun kv => (lookupKey defaultSettings kv.1).isSome || !(ks.contains kv.1)) := by
  induction ks generalizing st with
  | nil => simp
  | cons k ks ih =>
    rw [List.foldl_cons]
    by_cases hk : (lookupKey defaultSettings k).isSome
    · rw [if_pos hk, ih]
      apply List.filter_congr
      intro kv _
      by_cases hkv : (lookupKey defaultSettings kv.1).isSome
      · simp [hkv]
      · have hne : kv.1 ≠ k := fun h => hkv (h ▸ hk)
        simp [hkv, List.contains_cons, hne, Ne.symm hne]
    · rw [if_neg hk, ih]
      show (deleteKey st.1 k).filter _ = _
      unfold deleteKey
      rw [List.filter_filter]
      apply List.filter_congr
      intro kv _
      by_cases hkv : (lookupKey defaultSettings kv.1).isSome
      · have hne : kv.1 ≠ k := fun h => hk (h ▸ hkv)
        simp [hkv, hne]
      · have hk' : lookupKey defaultSettings k = none := Option.not_isSome_iff_eq_none.mp hk
        simp only [List.contains_cons]
        by_cases hne : kv.1 = k
        · simp [hne, hkv, hk']
        · simp [hne, hkv, Bool.and_comm, bne]

theorem settingsLoop2_flag (ks : List String) (st : Doc × Bool) :
    ((ks.foldl
      (fun st k => if (lookupKey defaultSettings k).isSome then st else (deleteKey st.1 k, true))
      st).2) =
      (st.2 || ks.any (fun k => !(lookupKey defaultSettings k).isSome)) := by
  induction ks generalizing st with
  | nil => simp
  | cons k ks ih =>
    rw [List.foldl_cons]
    by_cases hk : (lookupKey defaultSettings k).isSome
    · obtain ⟨w, hw⟩ := Option.isSome_iff_exists.mp hk
      rw [if_pos hk, ih]
      simp [hw]
    · have hn : lookupKey defaultSettings k = none := Option.not_isSome_iff_eq_none.mp hk
      rw [if_neg hk, ih]
      simp [hn]

theorem filter_eq_singleton_of_nodup (l : List String) (a : String)
    (h : l.Nodup) (ha : a ∈ l) : l.filter (fun x => a = x) = [a] := by
  induction l with
  | nil => cases ha
  | cons b t ih =>
    rw [List.nodup_cons] at h
    rcases List.mem_cons.mp ha with hb | ht
    · subst hb
      have : t.filter (fun x => a = x) = [] := by
        apply List.filter_eq_nil_iff.mpr
        intro x hx
        simp only [decide_eq_true_eq]
        exact fun he => h.1 (he ▸ hx)
      simp [List.filter_cons, this]
    · have hba : ¬ a = b := fun he => h.1 (he ▸ ht)
      simp [List.filter_cons, hba, ih h.2 ht]

theorem eq_singleton_of_nodup_all (l : List String) (a : String)
    (h : l.Nodup) (ha : a ∈ l) (hall : ∀ x ∈ l, x = a) : l = [a] := by
  cases l with
  | nil => cases ha
  | cons b t =>
    have hb : b = a := hall b (by simp)
    subst hb
    rw [List.nodup_cons] at h
    cases t with
    | nil => rfl
    | cons c u =>
      have hc : c = b := hall c (by simp)
      exact absurd (hc ▸ List.mem_cons_self c u) h.1

theorem keys_filter_keypred (l : Doc) (q : String → Bool) :
    (l.filter (fun kv => q kv.1)).map Prod.fst = (l.map Prod.fst).filter q := by
  induction l with
  | nil => rfl
  | cons kv t ih =>
    by_cases hq : q kv.1
    · simp [List.filter_cons, hq, ih]
    · simp [List.filter_cons, hq, ih]

theorem lookupKey_filter_keep (l : Doc) (q : String → Bool) (k : String) (hq : q k = true) :
    lookupKey (l.filter (fun kv => q kv.1)) k = lookupKey l k := by
  induction l with
  | nil => rfl
  | cons kv t ih =>
    obtain ⟨k0, v0⟩ := kv
    by_cases h0 : k0 = k
    · subst h0
      simp [List.filter_cons, hq, lookupKey_cons, ih]
    · by_cases hq0 : q k0
      · simp [List.filter_cons, hq0, lookupKey_cons, h0, ih]
      · simp [List.filter_cons, hq0, lookupKey_cons, h0, ih]

theorem keepCS (k : String) :
    (lookupKey defaultSettings k).isSome = decide ("categorySection" = k) := by
  unfold defaultSettings
  rw [lookupKey_cons]
  by_cases h : "categorySection" = k
  · simp [h]
  · simp [h, lookupKey_nil]

theorem getSettings_some_eq (s : Store) (data : Doc)
    (hd : getById s.settings "defaultSettings" = some data) :
    getSettings s =
      (let step1 :=
        if (lookupKey data "categorySection").isSome then (data, false)
        else (data ++ [("categorySection", Value.obj [("visibility", Value.str "HIDDEN")])], true)
       let doc2 := step1.1.filter
         (fun kv => (lookupKey defaultSettings kv.1).isSome ||
           !((step1.1.map Prod.fst).contains kv.1))
       let flag2 := step1.2 ||
         (step1.1.map Prod.fst).any (fun k => !(lookupKey defaultSettings k).isSome)
       if flag2 then
         (doc2, { s with settings := putById s.settings "defaultSettings" doc2 },
          [.pointGet "settings" "defaultSettings", .putDoc "settings" "defaultSettings"])
       else (doc2, s, [.pointGet "settings" "defaultSettings"])) := by
  simp only [getSettings, hd]
  rw [settingsLoop2_doc, settingsLoop2_flag]
  have hstep1 :
      List.foldl
        (fun st kv => if (lookupKey st.1 kv.1).isSome then st else (st.1 ++ [kv], true))
        (data, false) defaultSettings =
      (if (lookupKey data "categorySection").isSome then (data, false)
       else (data ++ [("categorySection", Value.obj [("visibility", Value.str "HIDDEN")])], true)) := by
    simp only [defaultSettings, List.foldl_cons, List.foldl_nil]
  rw [hstep1]

theorem settings_doc2_simp (d : Doc) :
    d.filter
      (fun kv => (lookupKey defaultSettings kv.1).isSome || !((d.map Prod.fst).contains kv.1)) =
      d.filter (fun kv => "categorySection" = kv.1) := by
  apply List.filter_congr
  intro kv hkv
  have hc : (d.map Prod.fst).contains kv.1 = true :=
    List.elem_eq_true_of_mem (List.mem_map_of_mem Prod.fst hkv)
  rw [keepCS kv.1, hc]
  simp only [Bool.not_true, Bool.or_false]

theorem keys_filter_eqkey (l : Doc) (a : String) :
    (l.filter (fun kv => a = kv.1)).map Prod.fst = (l.map Prod.fst).filter (fun x => a = x) := by
  induction l with
  | nil => rfl
  | cons kv t ih =>
    rw [List.filter_cons, List.map_cons, List.filter_cons]
    by_cases hq : a = kv.1
    · rw [if_pos (by simpa using hq), if_pos (by simpa using hq)]
      simp [ih]
    · rw [if_neg (by simpa using hq), if_neg (by simpa using hq)]
      exact ih

theorem lookupKey_filter_eqkey (l : Doc) (a : String) :
    lookupKey (l.filter (fun kv => a = kv.1)) a = lookupKey l a := by
  induction l with
  | nil => rfl
  | cons kv t ih =>
    obtain ⟨k0, v0⟩ := kv
    by_cases h0 : a = k0
    · simp [List.filter_cons, h0, lookupKey_cons, ih]
    · simp [List.filter_cons, h0, lookupKey_cons, Ne.symm h0, ih]

/-- Claim C5: after every `getSettings` call the returned document's key set is
exactly the default schema's key set, present keys keep their stored value and
missing keys get the default value, and a write-back occurs exactly when the
document was absent or its key set differed from the default schema's. -/
theorem claim_C5 (s : Store)
    (h : ∀ d, getById s.settings "defaultSettings" = some d → (d.map Prod.fst).Nodup) :
    ((getSettings s).1.map Prod.fst) = ["categorySection"] ∧
    (getById s.settings "defaultSettings" = none → (getSettings s).1 = defaultSettings) ∧
    (∀ d, getById s.settings "defaultSettings" = some d →
      lookupKey (getSettings s).1 "categorySection" =
        ((lookupKey d "categorySection").orElse
          (fun _ => some (Value.obj [("visibility", Value.str "HIDDEN")])))) ∧
    ((StoreOp.putDoc "settings" "defaultSettings") ∈ (getSettings s).2.2 ↔
      ¬ ∃ d, getById s.settings "defaultSettings" = some d ∧
        d.map Prod.fst = ["categorySection"]) := by
  cases hd : getById s.settings "defaultSettings" with
  | none =>
    refine ⟨?_, ?_, ?_, ?_⟩
    · simp [getSettings, hd, defaultSettings]
    · intro _
      simp [getSettings, hd]
    · intro d hd'
      exact absurd hd' (by simp)
    · simp [getSettings, hd]
  | some data =>
    have hnd : (data.map Prod.fst).Nodup := h data hd
    rw [getSettings_some_eq s data hd]
    simp only [hd]
    by_cases hcs : (lookupKey data "categorySection").isSome
    · simp only [if_pos hcs]
      have hdoc2 : data.filter
          (fun kv => (lookupKey defaultSettings kv.1).isSome ||
            !((data.map Prod.fst).contains kv.1)) =
          data.filter (fun kv => "categorySection" = kv.1) := settings_doc2_simp data
      have hkeys : (data.filter (fun kv => "categorySection" = kv.1)).map Prod.fst =
          ["categorySection"] := by
        rw [keys_filter_eqkey]
        exact filter_eq_singleton_of_nodup _ _ hnd
          ((lookupKey_isSome_iff data "categorySection").mp hcs)
      have hval : lookupKey (data.filter (fun kv => "categorySection" = kv.1)) "categorySection" =
          lookupKey data "categorySection" := lookupKey_filter_eqkey data "categorySection"
      have hflag : ((data.map Prod.fst).any
            (fun k => !(lookupKey defaultSettings k).isSome) = true) ↔
          ¬ data.map Prod.fst = ["categorySection"] := by
        rw [List.any_eq_true]
        constructor
        · rintro ⟨k, hk, hne⟩ heq
          rw [keepCS] at hne
          rw [heq] at hk
          simp at hk
          rw [hk] at hne
          simp at hne
        · intro hne
          by_contra hnot
          push_neg at hnot
          apply hne
          apply eq_singleton_of_nodup_all _ _ hnd
            ((lookupKey_isSome_iff data "categorySection").mp hcs)
          intro x hx
          have hx2 := hnot x hx
          rw [keepCS] at hx2
          have hx3 : decide ("categorySection" = x) = true := by
            cases hdec : decide ("categorySection" = x) with
            | true => rfl
            | false => exact absurd (by simp [hdec]) hx2
          exact (of_decide_eq_true hx3).symm
      obtain ⟨w, hw⟩ := Option.isSome_iff_exists.mp hcs
      by_cases hfl : (data.map Prod.fst).any (fun k => !(lookupKey defaultSettings k).isSome)
      · simp only [Bool.false_or, if_pos hfl]
        refine ⟨?_, ?_, ?_, ?_⟩
        · rw [hdoc2]
          exact hkeys
        · intro hnone
          exact absurd hnone (by simp)
        · intro d hd'
          obtain rfl : data = d := by injection hd'
          rw [hdoc2, hval, hw]
          rfl
        · constructor
          · intro _
            rintro ⟨d, hd', hk⟩
            obtain rfl : data = d := by injection hd'
            exact (hflag.mp hfl) hk
          · intro _
            simp
      · simp only [Bool.false_or, if_neg hfl]
        have hkeq : data.map Prod.fst = ["categorySection"] := by
          by_contra hne
          exact hfl (hflag.mpr hne)
        refine ⟨?_, ?_, ?_, ?_⟩
        · rw [hdoc2]
          exact hkeys
        · intro hnone
          exact absurd hnone (by simp)
        · intro d hd'
          obtain rfl : data = d := by injection hd'
          rw [hdoc2, hval, hw]
          rfl
        · constructor
          · intro hmem
            simp at hmem
          · intro hno
            exact absurd ⟨data, rfl, hkeq⟩ hno
    · simp only [if_neg hcs]
      have hn : lookupKey data "categorySection" = none :=
        Option.not_isSome_iff_eq_none.mp hcs
      have hcsnot : "categorySection" ∉ data.map Prod.fst := by
        rw [← lookupKey_isSome_iff]
        simp [hn]
      have hdoc2 :
          (data ++ [("categorySection", Value.obj [("visibility", Value.str "HIDDEN")])]).filter
            (fun kv => (lookupKey defaultSettings kv.1).isSome ||
              !(((data ++
                [("categorySection",
                  Value.obj [("visibility", Value.str "HIDDEN")])]).map Prod.fst).contains kv.1)) =
          [("categorySection", Value.obj [("visibility", Value.str "HIDDEN")])] := by
        rw [settings_doc2_simp]
        rw [List.filter_append]
        have h1 : data.filter (fun kv => ("categorySection" : String) = kv.1) = [] := by
          apply List.filter_eq_nil_iff.mpr
          intro kv hkv
          simp only [decide_eq_true_eq]
          intro he
          exact hcsnot (he ▸ List.mem_map_of_mem Prod.fst hkv)
        rw [h1]
        simp
      simp only [hdoc2, Bool.true_or]
      simp only [eq_self_iff_true, if_true]
      refine ⟨?_, ?_, ?_, ?_⟩
      · rfl
      · intro hnone
        exact absurd hnone (by simp)
      · intro d hd'
        obtain rfl : data = d := by injection hd'
        simp [lookupKey_cons, lookupKey_nil, hn]
      · constructor
        · intro _
          rintro ⟨d, hd', hk⟩
          obtain rfl : data = d := by injection hd'
          rw [hk] at hcsnot
          exact hcsnot (by simp)
        · intro _
          simp

/-! ### Page hero lemmas -/

/-- Claim C6: on a missing document `getPageHero` writes the hardcoded
default at the fixed id (a `putDoc` store effect is issued and the document
is present in the resulting store), returns that default with `id` attached,
and the call after first creation returns the same content; on a present
document the stored content is returned unchanged (plus `id`) and the store
is left untouched. -/
theorem claim_C6 (s : Store) :
    (getById s.pageHero "homepageHero" = none →
      (getPageHero s).1 =
        [("id", Value.str "homepageHero"),
         ("images", Value.obj [("desktop", Value.str ""), ("mobile", Value.str "")]),
         ("title", Value.str ""), ("destinationUrl", Value.str ""),
         ("visibility", Value.str "HIDDEN")] ∧
      StoreOp.putDoc "pageHero" "homepageHero" ∈ (getPageHero s).2.2 ∧
      getById ((getPageHero s).2.1).pageHero "homepageHero" = some defaultPageHero ∧
      (getPageHero ((getPageHero s).2.1)).1 = (getPageHero s).1) ∧
    (∀ d, getById s.pageHero "homepageHero" = some d → (d.map Prod.fst).Nodup →
      (∀ k, k ≠ "id" → lookupKey (getPageHero s).1 k = lookupKey d k) ∧
      lookupKey (getPageHero s).1 "id" =
        ((lookupKey d "id").orElse (fun _ => some (Value.str "homepageHero"))) ∧
      (getPageHero s).2.1 = s) := by
  constructor
  · intro hd
    have h2 : getById (putById s.pageHero "homepageHero" defaultPageHero) "homepageHero" =
        some defaultPageHero := by
      rw [getById_putById]
      simp
    refine ⟨?_, ?_, ?_, ?_⟩
    · simp only [getPageHero, hd]
      rfl
    · simp only [getPageHero, hd]
      simp
    · simp only [getPageHero, hd]
      exact h2
    · simp only [getPageHero, hd, h2]
  · intro d hd hnd
    refine ⟨?_, ?_, ?_⟩
    · intro k hk
      simp only [getPageHero, hd]
      rw [lookupKey_spreadInto _ _ _ hnd]
      cases h2 : lookupKey d k with
      | some w => simp
      | none => simp [lookupKey_cons, Ne.symm hk, lookupKey_nil]
    · simp only [getPageHero, hd]
      rw [lookupKey_spreadInto _ _ _ hnd]
      cases h2 : lookupKey d "id" with
      | some w => simp
      | none => simp [lookupKey_cons, lookupKey_nil]
    · simp only [getPageHero, hd]

/-! ### Result-shape inversions -/

theorem getProducts_eq_some (s : Store) (rawF rawV : Value) (l : List Doc)
    (h : getProducts s rawF rawV = some l) :
    l = sortItemsDate "updatedAt"
      ((queryVisibilityRaw s.products rawV).map (productEntry (sanitizeStringList rawF))) ∧
    queryVisibilityRaw s.products rawV ≠ [] := by
  unfold getProducts sanitizeBaseOptions at h
  by_cases he : (queryVisibilityRaw s.products rawV).isEmpty
  · rw [if_pos he] at h
    cases h
  · rw [if_neg he] at h
    have := Option.some_inj.mp h
    exact ⟨this.symm, fun hnil => he (by simp [hnil])⟩

theorem getCollections_eq_some (s : Store) (rawF rawV : Value) (l : List Doc)
    (h : getCollections s rawF rawV = some l) :
    l = sortItemsNum "index"
      ((queryVisibilityRaw s.collections rawV).map (collectionEntry s (sanitizeStringList rawF))) ∧
    queryVisibilityRaw s.collections rawV ≠ [] := by
  unfold getCollections sanitizeBaseOptions at h
  by_cases he : (queryVisibilityRaw s.collections rawV).isEmpty
  · rw [if_pos he] at h
    cases h
  · rw [if_neg he] at h
    have := Option.some_inj.mp h
    exact ⟨this.symm, fun hnil => he (by simp [hnil])⟩

theorem getProductsByIds_eq_some (s : Store) (rawIds rawF rawV : Value) (l : List Doc)
    (h : (getProductsByIds s rawIds rawF rawV).1 = some l) :
    l = sortItemsDate "updatedAt"
      ((queryVisibilitySan
          (s.products.filter (fun p => (sanitizeMultiItemOptions rawIds rawF rawV).ids.contains p.1))
          (sanitizeMultiItemOptions rawIds rawF rawV).visibility).map
        (productEntry (sanitizeMultiItemOptions rawIds rawF rawV).fields)) := by
  unfold getProductsByIds at h
  by_cases hi : (sanitizeMultiItemOptions rawIds rawF rawV).ids.isEmpty
  · rw [if_pos hi] at h
    cases h
  · rw [if_neg hi] at h
    by_cases he : (queryVisibilitySan
        (s.products.filter (fun p => (sanitizeMultiItemOptions rawIds rawF rawV).ids.contains p.1))
        (sanitizeMultiItemOptions rawIds rawF rawV).visibility).isEmpty
    · rw [if_pos he] at h
      cases h
    · rw [if_neg he] at h
      exact (Option.some_inj.mp h).symm

/-- Claim C2 (amended): `getProducts`, `getProductsByIds`, `getCollections`
and `getCategories` return `null` exactly on an empty result set and never an
empty list, while `getUpsells` never returns `null` and yields the empty list
on an empty partition. -/
theorem claim_C2 :
    (∀ (s : Store) (rawF rawV : Value),
      queryVisibilityRaw s.products rawV = [] → getProducts s rawF rawV = none) ∧
    (∀ (s : Store) (rawF rawV : Value) (l : List Doc),
      getProducts s rawF rawV = some l → l ≠ []) ∧
    (∀ (s : Store) (rawF rawV : Value),
      queryVisibilityRaw s.collections rawV = [] → getCollections s rawF rawV = none) ∧
    (∀ (s : Store) (rawF rawV : Value) (l : List Doc),
      getCollections s rawF rawV = some l → l ≠ []) ∧
    (∀ (s : Store) (rawIds rawF rawV : Value),
      queryVisibilitySan
        (s.products.filter
          (fun p => (sanitizeMultiItemOptions rawIds rawF rawV).ids.contains p.1))
        (sanitizeMultiItemOptions rawIds rawF rawV).visibility = [] →
      (getProductsByIds s rawIds rawF rawV).1 = none) ∧
    (∀ (s : Store) (rawIds rawF rawV : Value) (l : List Doc),
      (getProductsByIds s rawIds rawF rawV).1 = some l → l ≠ []) ∧
    (∀ (s : Store), s.categories = [] → getCategories s = none) ∧
    (∀ (s : Store) (l : List Doc), getCategories s = some l → l ≠ []) ∧
    (∀ (s : Store), getUpsells s ≠ none) ∧
    (∀ (s : Store), s.upsells = [] → getUpsells s = some []) := by
  refine ⟨?_, ?_, ?_, ?_, ?_, ?_, ?_, ?_, ?_, ?_⟩
  · intro s rawF rawV hq
    simp only [getProducts, sanitizeBaseOptions]
    rw [hq]
    rfl
  · intro s rawF rawV l hl hnil
    obtain ⟨hleq, hne⟩ := getProducts_eq_some s rawF rawV l hl
    subst hnil
    apply hne
    have hlen := length_sortItemsDate "updatedAt"
      ((queryVisibilityRaw s.products rawV).map (productEntry (sanitizeStringList rawF)))
    rw [← hleq] at hlen
    simp only [List.length_nil, List.length_map] at hlen
    exact List.length_eq_zero.mp hlen.symm
  · intro s rawF rawV hq
    simp only [getCollections, sanitizeBaseOptions]
    rw [hq]
    rfl
  · intro s rawF rawV l hl hnil
    obtain ⟨hleq, hne⟩ := getCollections_eq_some s rawF rawV l hl
    subst hnil
    apply hne
    have hlen := length_sortItemsNum "index"
      ((queryVisibilityRaw s.collections rawV).map (collectionEntry s (sanitizeStringList rawF)))
    rw [← hleq] at hlen
    simp only [List.length_nil, List.length_map] at hlen
    exact List.length_eq_zero.mp hlen.symm
  · intro s rawIds rawF rawV hq
    unfold getProductsByIds
    by_cases hi : (sanitizeMultiItemOptions rawIds rawF rawV).ids.isEmpty
    · rw [if_pos hi]
    · rw [if_neg hi, hq]
      rfl
  · intro s rawIds rawF rawV l hl hnil
    subst hnil
    unfold getProductsByIds at hl
    by_cases hi : (sanitizeMultiItemOptions rawIds rawF rawV).ids.isEmpty
    · rw [if_pos hi] at hl
      cases hl
    · rw [if_neg hi] at hl
      by_cases he : (queryVisibilitySan
          (s.products.filter
            (fun p => (sanitizeMultiItemOptions rawIds rawF rawV).ids.contains p.1))
          (sanitizeMultiItemOptions rawIds rawF rawV).visibility).isEmpty
      · rw [if_pos he] at hl
        cases hl
      · rw [if_neg he] at hl
        have h2 := Option.some_inj.mp hl
        have hq0 : queryVisibilitySan
            (s.products.filter
              (fun p => (sanitizeMultiItemOptions rawIds rawF rawV).ids.contains p.1))
            (sanitizeMultiItemOptions rawIds rawF rawV).visibility = [] := by
          have hlen := length_sortItemsDate "updatedAt"
            ((queryVisibilitySan
              (s.products.filter
                (fun p => (sanitizeMultiItemOptions rawIds rawF rawV).ids.contains p.1))
              (sanitizeMultiItemOptions rawIds rawF rawV).visibility).map
              (productEntry (sanitizeMultiItemOptions rawIds rawF rawV).fields))
          rw [h2] at hlen
          simp only [List.length_nil, List.length_map] at hlen
          exact List.length_eq_zero.mp hlen.symm
        rw [hq0] at he
        exact he rfl
  · intro s hc
    unfold getCategories
    rw [hc]
    rfl
  · intro s l hl hnil
    subst hnil
    unfold getCategories at hl
    by_cases hc : s.categories.isEmpty
    · rw [if_pos hc] at hl
      cases hl
    · rw [if_neg hc] at hl
      have h2 := Option.some_inj.mp hl
      have hq0 : s.categories = [] := by
        have hlen := length_sortItemsNum "index"
          (s.categories.map (fun p => spreadInto [("id", Value.str p.1)] p.2))
        rw [h2] at hlen
        simp only [List.length_nil, List.length_map] at hlen
        exact List.length_eq_zero.mp hlen.symm
      rw [hq0] at hc
      exact hc rfl
  · intro s h
    unfold getUpsells at h
    cases h
  · intro s hu
    unfold getUpsells
    rw [hu]
    simp [sortItemsDate]

/-- Claim C3 (amended): `getProduct` and `getCollection` short-circuit to
`null` with no store access on an empty trimmed id, and `getProductsByIds`
does so on an empty sanitized ids list; `getUpsell`, however, performs no id
sanitization and always issues exactly one point lookup with the raw id. -/
theorem claim_C3 :
    (∀ (s : Store) (rawId : String) (rawF : Value),
      jsTrim rawId = "" → getProduct s rawId rawF = (none, [])) ∧
    (∀ (s : Store) (rawId : String) (rawF : Value),
      jsTrim rawId = "" → getCollection s rawId rawF = (none, [])) ∧
    (∀ (s : Store) (rawIds rawF rawV : Value),
      (sanitizeMultiItemOptions rawIds rawF rawV).ids = [] →
      getProductsByIds s rawIds rawF rawV = (none, [])) ∧
    (∀ (s : Store) (id : String),
      (getUpsell s id).2 = [StoreOp.pointGet "upsells" id]) := by
  refine ⟨?_, ?_, ?_, ?_⟩
  · intro s rawId rawF h
    unfold getProduct sanitizeSingleItemOptions
    rw [if_pos h]
  · intro s rawId rawF h
    unfold getCollection sanitizeSingleItemOptions
    rw [if_pos h]
  · intro s rawIds rawF rawV h
    unfold getProductsByIds
    rw [if_pos (by simp [h])]
  · intro s id
    unfold getUpsell
    cases h : getById s.upsells id with
    | none => rfl
    | some data => rfl

/-- Claim C4 (amended): when a referenced product document exists, the
resolved upsell snapshot re-reads `slug`, `mainImage` and `basePrice` (and
`id`) from the stored product document, while `index` and `name` are copied
from the snapshot stored inside the upsell document. -/
theorem claim_C4 (s : Store) (item : Value) (pdata : Doc)
    (hp : getById s.products (strOf (vGet item "id")) = some pdata) :
    ∃ entry, resolveUpsellItem s item = some entry ∧
      vGet entry "index" = vGet item "index" ∧
      vGet entry "name" = vGet item "name" ∧
      vGet entry "id" = jsGet pdata "id" ∧
      vGet entry "slug" = jsGet pdata "slug" ∧
      vGet entry "mainImage" = vGet (jsGet pdata "images") "main" ∧
      vGet entry "basePrice" = vGet (jsGet pdata "pricing") "basePrice" := by
  refine ⟨Value.obj
      [("index", vGet item "index"), ("name", vGet item "name"), ("id", jsGet pdata "id"),
       ("slug", jsGet pdata "slug"), ("mainImage", vGet (jsGet pdata "images") "main"),
       ("basePrice", vGet (jsGet pdata "pricing") "basePrice")],
    by simp only [resolveUpsellItem, hp], rfl, rfl, rfl, rfl, rfl, rfl⟩

/-- Claim C9: `getProductWithUpsell` returns the product unchanged (also
`null`) when the product is absent or carries no truthy upsell reference,
returns the plain product when the referenced upsell document is absent, and
on resolution silently drops every upsell entry whose referenced product
document no longer exists. -/
theorem claim_C9 :
    (∀ (s : Store) (rawId : String) (rawF : Value),
      (getProduct s rawId rawF).1 = none → getProductWithUpsell s rawId rawF = none) ∧
    (∀ (s : Store) (rawId : String) (rawF : Value) (p : Doc),
      (getProduct s rawId rawF).1 = some p →
      truthy (jsGet p "upsell") = false →
      getProductWithUpsell s rawId rawF = some p) ∧
    (∀ (s : Store) (rawId : String) (rawF : Value) (p : Doc),
      (getProduct s rawId rawF).1 = some p →
      truthy (jsGet p "upsell") = true →
      getById s.upsells (strOf (jsGet p "upsell")) = none →
      getProductWithUpsell s rawId rawF = some p) ∧
    (∀ (s : Store) (items : List Value),
      (items.filterMap (resolveUpsellItem s)).length =
        (items.filter
          (fun it => (getById s.products (strOf (vGet it "id"))).isSome)).length ∧
      ∀ it ∈ items, getById s.products (strOf (vGet it "id")) = none →
        resolveUpsellItem s it = none) ∧
    (∀ (s : Store) (rawId : String) (rawF : Value) (p ud : Doc),
      (getProduct s rawId rawF).1 = some p →
      truthy (jsGet p "upsell") = true →
      getById s.upsells (strOf (jsGet p "upsell")) = some ud →
      ∃ resDoc udoc ps, getProductWithUpsell s rawId rawF = some resDoc ∧
        lookupKey resDoc "upsell" = some (.obj udoc) ∧
        lookupKey udoc "products" = some (.arr ps) ∧
        ps.length = ((jsArray (jsGet ud "products")).filter
          (fun it => (getById s.products (strOf (vGet it "id"))).isSome)).length) := by
  have hres : ∀ (s : Store) (it : Value),
      (resolveUpsellItem s it).isSome = (getById s.products (strOf (vGet it "id"))).isSome := by
    intro s it
    unfold resolveUpsellItem
    cases h : getById s.products (strOf (vGet it "id")) with
    | none => simp
    | some d => simp
  have hlen : ∀ (s : Store) (items : List Value),
      (items.filterMap (resolveUpsellItem s)).length =
        (items.filter
          (fun it => (getById s.products (strOf (vGet it "id"))).isSome)).length := by
    intro s items
    rw [length_filterMap_isSome]
    congr 1
    apply List.filter_congr
    intro it _
    exact hres s it
  refine ⟨?_, ?_, ?_, ?_, ?_⟩
  · intro s rawId rawF h
    unfold getProductWithUpsell
    rw [h]
  · intro s rawId rawF p h1 h2
    unfold getProductWithUpsell
    rw [h1]
    simp [h2]
  · intro s rawId rawF p h1 h2 h3
    unfold getProductWithUpsell
    rw [h1]
    simp [h2, h3]
  · intro s items
    refine ⟨hlen s items, ?_⟩
    intro it _ hnone
    unfold resolveUpsellItem
    rw [hnone]
  · intro s rawId rawF p ud h1 h2 h3
    refine ⟨setKey (spreadInto [] p) "upsell"
        (Value.obj (setKey (spreadInto [] ud) "products"
          (Value.arr ((jsArray (jsGet ud "products")).filterMap (resolveUpsellItem s))))),
      setKey (spreadInto [] ud) "products"
        (Value.arr ((jsArray (jsGet ud "products")).filterMap (resolveUpsellItem s))),
      (jsArray (jsGet ud "products")).filterMap (resolveUpsellItem s), ?_, ?_, ?_, ?_⟩
    · simp [getProductWithUpsell, h1, h2, h3]
    · rw [lookupKey_setKey]
      simp
    · rw [lookupKey_setKey]
      simp
    · exact hlen s (jsArray (jsGet ud "products"))

/-- Claim C7: every list result is deterministically sorted — products,
products-by-ids and upsells by `updatedAt` descending, collections and
categories by `index` ascending, and the `products` sub-list of `getUpsell`
by `index` ascending with ties keeping the stored relative order. -/
theorem claim_C7 :
    (∀ (s : Store) (rawF rawV : Value) (l : List Doc),
      getProducts s rawF rawV = some l →
      l.Pairwise (fun a b => toTime (jsGet b "updatedAt") ≤ toTime (jsGet a "updatedAt"))) ∧
    (∀ (s : Store) (rawIds rawF rawV : Value) (l : List Doc),
      (getProductsByIds s rawIds rawF rawV).1 = some l →
      l.Pairwise (fun a b => toTime (jsGet b "updatedAt") ≤ toTime (jsGet a "updatedAt"))) ∧
    (∀ (s : Store) (l : List Doc),
      getUpsells s = some l →
      l.Pairwise (fun a b => toTime (jsGet b "updatedAt") ≤ toTime (jsGet a "updatedAt"))) ∧
    (∀ (s : Store) (rawF rawV : Value) (l : List Doc),
      getCollections s rawF rawV = some l →
      l.Pairwise (fun a b => toNum (jsGet a "index") ≤ toNum (jsGet b "index"))) ∧
    (∀ (s : Store) (l : List Doc),
      getCategories s = some l →
      l.Pairwise (fun a b => toNum (jsGet a "index") ≤ toNum (jsGet b "index"))) ∧
    (∀ (s : Store) (id : String) (data : Doc) (items : List Value),
      getById s.upsells id = some data →
      jsGet data "products" = Value.arr items →
      ∃ u ps, (getUpsell s id).1 = some u ∧
        lookupKey u "products" = some (Value.arr ps) ∧
        ps.Pairwise (fun a b => toNum (vGet a "index") ≤ toNum (vGet b "index")) ∧
        ∀ n : Int, ps.filter (fun v => toNum (vGet v "index") == n) =
          items.filter (fun v => toNum (vGet v "index") == n)) := by
  refine ⟨?_, ?_, ?_, ?_, ?_, ?_⟩
  · intro s rawF rawV l hl
    obtain ⟨hleq, -⟩ := getProducts_eq_some s rawF rawV l hl
    rw [hleq]
    exact pairwise_sortItemsDate "updatedAt" _
  · intro s rawIds rawF rawV l hl
    rw [getProductsByIds_eq_some s rawIds rawF rawV l hl]
    exact pairwise_sortItemsDate "updatedAt" _
  · intro s l hl
    unfold getUpsells at hl
    rw [(Option.some_inj.mp hl).symm]
    exact pairwise_sortItemsDate "updatedAt" _
  · intro s rawF rawV l hl
    obtain ⟨hleq, -⟩ := getCollections_eq_some s rawF rawV l hl
    rw [hleq]
    exact pairwise_sortItemsNum "index" _
  · intro s l hl
    unfold getCategories at hl
    by_cases hc : s.categories.isEmpty
    · rw [if_pos hc] at hl
      cases hl
    · rw [if_neg hc] at hl
      rw [(Option.some_inj.mp hl).symm]
      exact pairwise_sortItemsNum "index" _
  · intro s id data items hd hitems
    have htr : truthy (jsGet data "products") = true := by rw [hitems]; rfl
    refine ⟨setKey (spreadInto [("id", Value.str id)] data) "products"
        (Value.arr (sortValuesByIndex items)),
      sortValuesByIndex items, ?_, ?_, ?_, ?_⟩
    · unfold getUpsell
      rw [hd]
      simp only [htr, if_pos, hitems]
      rfl
    · rw [lookupKey_setKey]
      simp
    · exact pairwise_sortValuesByIndex items
    · intro n
      exact filter_sortValuesByIndex items n

/-- Claim C8: `sanitizeMultiItemOptions` filters `ids` and `fields` down to
the non-blank string entries (non-arrays giving the empty list, duplicates
kept), uppercases a string visibility and keeps it only when it is one of
DRAFT/PUBLISHED/HIDDEN, drops every other visibility silently, and is total
(no input is rejected). -/
theorem claim_C8 (ids fields vis : Value) :
    (∀ l, ids = Value.arr l →
      (sanitizeMultiItemOptions ids fields vis).ids = (l.filter isNonblankString).map strOf) ∧
    ((∀ l, ids ≠ Value.arr l) → (sanitizeMultiItemOptions ids fields vis).ids = []) ∧
    (∀ l, fields = Value.arr l →
      (sanitizeMultiItemOptions ids fields vis).fields = (l.filter isNonblankString).map strOf) ∧
    ((∀ l, fields ≠ Value.arr l) → (sanitizeMultiItemOptions ids fields vis).fields = []) ∧
    (∀ str, vis = Value.str str →
      (sanitizeMultiItemOptions ids fields vis).visibility =
        (if (jsToUpper str) ∈ validVisibilityFlags then some (jsToUpper str) else none)) ∧
    ((∀ str, vis ≠ Value.str str) → (sanitizeMultiItemOptions ids fields vis).visibility = none) := by
  refine ⟨?_, ?_, ?_, ?_, ?_, ?_⟩
  · intro l hl
    subst hl
    rfl
  · intro hna
    unfold sanitizeMultiItemOptions sanitizeStringList
    cases ids with
    | arr l => exact absurd rfl (hna l)
    | undefined => rfl
    | nul => rfl
    | bool b => rfl
    | num n => rfl
    | str s => rfl
    | obj o => rfl
  · intro l hl
    subst hl
    rfl
  · intro hna
    unfold sanitizeMultiItemOptions sanitizeStringList
    cases fields with
    | arr l => exact absurd rfl (hna l)
    | undefined => rfl
    | nul => rfl
    | bool b => rfl
    | num n => rfl
    | str s => rfl
    | obj o => rfl
  · intro str hstr
    subst hstr
    simp only [sanitizeMultiItemOptions]
    by_cases hv : validVisibilityFlags.contains (jsToUpper str)
    · rw [if_pos hv, if_pos (List.mem_of_elem_eq_true hv)]
    · have hnm : jsToUpper str ∉ validVisibilityFlags :=
        fun hm => hv (List.elem_eq_true_of_mem hm)
      rw [if_neg hv, if_neg hnm]
  · intro hns
    unfold sanitizeMultiItemOptions
    cases vis with
    | str s => exact absurd rfl (hns s)
    | undefined => rfl
    | nul => rfl
    | bool b => rfl
    | num n => rfl
    | arr l => rfl
    | obj o => rfl

/-- Claim C1 (amended): projection of present documents. For `getProduct` and
`getCollection` the result holds `id` plus exactly the projected fields (all
stored fields when `fields` is empty). For `getProducts`/`getProductsByIds`
the same holds except `updatedAt` and `visibility` are always carried. For
`getCollections` the always-carried fields are `updatedAt`, `index`,
`visibility` and `collectionType`, the expanded `products` list is present
exactly when requested, and an empty `fields` list yields no other stored
fields (there is no full-document fallback). -/
theorem claim_C1 :
    (∀ (s : Store) (rawId : String) (rawFields : Value) (data : Doc),
      getById s.products (jsTrim rawId) = some data → (data.map Prod.fst).Nodup →
      jsTrim rawId ≠ "" →
      ∃ res, (getProduct s rawId rawFields).1 = some res ∧
        (∀ k, k ≠ "id" →
          lookupKey res k = projectedValue (sanitizeStringList rawFields) data k) ∧
        (lookupKey res "id").isSome) ∧
    (∀ (s : Store) (rawId : String) (rawFields : Value) (data : Doc),
      getById s.collections (jsTrim rawId) = some data → (data.map Prod.fst).Nodup →
      jsTrim rawId ≠ "" →
      ∃ res, (getCollection s rawId rawFields).1 = some res ∧
        (∀ k, k ≠ "id" →
          lookupKey res k = projectedValue (sanitizeStringList rawFields) data k) ∧
        (lookupKey res "id").isSome) ∧
    (∀ (s : Store) (rawFields rawVisibility : Value) (l : List Doc),
      getProducts s rawFields rawVisibility = some l →
      ∀ res ∈ l, ∃ p, p ∈ queryVisibilityRaw s.products rawVisibility ∧
        ((p.2.map Prod.fst).Nodup →
          (∀ k, k ≠ "id" → k ≠ "updatedAt" → k ≠ "visibility" →
            lookupKey res k = projectedValue (sanitizeStringList rawFields) p.2 k) ∧
          lookupKey res "updatedAt" = some (jsGet p.2 "updatedAt") ∧
          lookupKey res "visibility" = some (jsGet p.2 "visibility") ∧
          (lookupKey res "id").isSome)) ∧
    (∀ (s : Store) (rawIds rawFields rawVisibility : Value) (l : List Doc),
      (getProductsByIds s rawIds rawFields rawVisibility).1 = some l →
      ∀ res ∈ l, ∃ p,
        p ∈ queryVisibilitySan
          (s.products.filter
            (fun q => (sanitizeMultiItemOptions rawIds rawFields rawVisibility).ids.contains q.1))
          (sanitizeMultiItemOptions rawIds rawFields rawVisibility).visibility ∧
        ((p.2.map Prod.fst).Nodup →
          (∀ k, k ≠ "id" → k ≠ "updatedAt" → k ≠ "visibility" →
            lookupKey res k =
              projectedValue (sanitizeMultiItemOptions rawIds rawFields rawVisibility).fields p.2 k) ∧
          lookupKey res "updatedAt" = some (jsGet p.2 "updatedAt") ∧
          lookupKey res "visibility" = some (jsGet p.2 "visibility") ∧
          (lookupKey res "id").isSome)) ∧
    (∀ (s : Store) (rawFields rawVisibility : Value) (l : List Doc),
      getCollections s rawFields rawVisibility = some l →
      ∀ res ∈ l, ∃ p, p ∈ queryVisibilityRaw s.collections rawVisibility ∧
        ((∀ k, k ≠ "id" → k ≠ "updatedAt" → k ≠ "index" → k ≠ "visibility" →
            k ≠ "collectionType" → k ≠ "products" →
            lookupKey res k =
              (if k ∈ sanitizeStringList rawFields ∧ (lookupKey p.2 k).isSome
               then lookupKey p.2 k else none)) ∧
          lookupKey res "updatedAt" = some (jsGet p.2 "updatedAt") ∧
          lookupKey res "index" = some (jsGet p.2 "index") ∧
          lookupKey res "visibility" = some (jsGet p.2 "visibility") ∧
          lookupKey res "collectionType" = some (jsGet p.2 "collectionType") ∧
          ("products" ∈ sanitizeStringList rawFields →
            lookupKey res "products" =
              some (.arr (expandCollectionProducts s (jsArray (jsGet p.2 "products"))))) ∧
          ("products" ∉ sanitizeStringList rawFields → lookupKey res "products" = none) ∧
          (lookupKey res "id").isSome)) := by
  refine ⟨?_, ?_, ?_, ?_, ?_⟩
  · intro s rawId rawFields data hdata hnd hne
    refine ⟨spreadInto [("id", Value.str (jsTrim rawId))]
      (projectFields (sanitizeStringList rawFields) data), ?_, ?_, ?_⟩
    · simp only [getProduct, sanitizeSingleItemOptions]
      rw [if_neg hne, hdata]
    · intro k hk
      rw [lookupKey_spreadInto _ _ _ (nodup_keys_projectFields _ _ hnd),
        lookupKey_projectFields]
      cases hp : projectedValue (sanitizeStringList rawFields) data k with
      | some w => simp
      | none => simp [lookupKey_cons, Ne.symm hk, lookupKey_nil]
    · rw [lookupKey_spreadInto _ _ _ (nodup_keys_projectFields _ _ hnd)]
      cases hp : lookupKey (projectFields (sanitizeStringList rawFields) data) "id" with
      | some w => simp
      | none => simp [lookupKey_cons, lookupKey_nil]
  · intro s rawId rawFields data hdata hnd hne
    refine ⟨spreadInto [("id", Value.str (jsTrim rawId))]
      (projectFields (sanitizeStringList rawFields) data), ?_, ?_, ?_⟩
    · simp only [getCollection, sanitizeSingleItemOptions]
      rw [if_neg hne, hdata]
    · intro k hk
      rw [lookupKey_spreadInto _ _ _ (nodup_keys_projectFields _ _ hnd),
        lookupKey_projectFields]
      cases hp : projectedValue (sanitizeStringList rawFields) data k with
      | some w => simp
      | none => simp [lookupKey_cons, Ne.symm hk, lookupKey_nil]
    · rw [lookupKey_spreadInto _ _ _ (nodup_keys_projectFields _ _ hnd)]
      cases hp : lookupKey (projectFields (sanitizeStringList rawFields) data) "id" with
      | some w => simp
      | none => simp [lookupKey_cons, lookupKey_nil]
  · intro s rawFields rawVisibility l hl res hres
    obtain ⟨hleq, -⟩ := getProducts_eq_some s rawFields rawVisibility l hl
    rw [hleq, mem_sortItemsDate] at hres
    obtain ⟨p, hp, hpe⟩ := List.mem_map.mp hres
    refine ⟨p, hp, ?_⟩
    intro hnd
    subst hpe
    refine ⟨?_, ?_, ?_, ?_⟩
    · intro k h1 h2 h3
      rw [lookupKey_productEntry _ _ _ hnd, if_neg h3, if_neg h2, if_neg h1]
    · rw [lookupKey_productEntry _ _ _ hnd]
      simp
    · rw [lookupKey_productEntry _ _ _ hnd]
      simp
    · rw [lookupKey_productEntry _ _ _ hnd]
      simp only [if_neg (by simp : ¬("id" : String) = "visibility"),
        if_neg (by simp : ¬("id" : String) = "updatedAt"), if_pos rfl]
      cases hv : projectedValue (sanitizeStringList rawFields) p.2 "id" with
      | some w => simp
      | none => simp
  · intro s rawIds rawFields rawVisibility l hl res hres
    have hleq := getProductsByIds_eq_some s rawIds rawFields rawVisibility l hl
    rw [hleq, mem_sortItemsDate] at hres
    obtain ⟨p, hp, hpe⟩ := List.mem_map.mp hres
    refine ⟨p, hp, ?_⟩
    intro hnd
    subst hpe
    refine ⟨?_, ?_, ?_, ?_⟩
    · intro k h1 h2 h3
      rw [lookupKey_productEntry _ _ _ hnd, if_neg h3, if_neg h2, if_neg h1]
    · rw [lookupKey_productEntry _ _ _ hnd]
      simp
    · rw [lookupKey_productEntry _ _ _ hnd]
      simp
    · rw [lookupKey_productEntry _ _ _ hnd]
      simp only [if_neg (by simp : ¬("id" : String) = "visibility"),
        if_neg (by simp : ¬("id" : String) = "updatedAt"), if_pos rfl]
      cases hv : projectedValue (sanitizeMultiItemOptions rawIds rawFields rawVisibility).fields p.2 "id" with
      | some w => simp
      | none => simp
  · intro s rawFields rawVisibility l hl res hres
    obtain ⟨hleq, -⟩ := getCollections_eq_some s rawFields rawVisibility l hl
    rw [hleq, mem_sortItemsNum] at hres
    obtain ⟨p, hp, hpe⟩ := List.mem_map.mp hres
    refine ⟨p, hp, ?_⟩
    subst hpe
    refine ⟨?_, ?_, ?_, ?_, ?_, ?_, ?_, ?_⟩
    · intro k h1 h2 h3 h4 h5 h6
      rw [lookupKey_collectionEntry, if_neg h5, if_neg h4, if_neg h3, if_neg h2, if_neg h6,
        if_neg h1]
    · rw [lookupKey_collectionEntry]
      simp
    · rw [lookupKey_collectionEntry]
      simp
    · rw [lookupKey_collectionEntry]
      simp
    · rw [lookupKey_collectionEntry]
      simp
    · intro hpm
      rw [lookupKey_collectionEntry]
      simp [hpm]
    · intro hpm
      rw [lookupKey_collectionEntry]
      simp [hpm]
    · rw [lookupKey_collectionEntry]
      simp only [if_neg (by simp : ¬("id" : String) = "collectionType"),
        if_neg (by simp : ¬("id" : String) = "visibility"),
        if_neg (by simp : ¬("id" : String) = "index"),
        if_neg (by simp : ¬("id" : String) = "updatedAt"),
        if_neg (by simp : ¬("id" : String) = "products"), if_pos rfl]
      cases hv : (if ("id" : String) ∈ sanitizeStringList rawFields ∧
          (lookupKey p.2 "id").isSome then lookupKey p.2 "id" else none) with
      | some w => simp
      | none => simp

theorem sortItemsNum_singleton (key : String) (d : Doc) :
    sortItemsNum key [d] = [d] := by
  unfold sortItemsNum
  exact List.mergeSort_singleton d

/-- Claim C10: in the denormalized `products` expansion of `getCollections`,
a missing referenced document is not dropped — its slot holds exactly the
stored reference's `id` and `index` — while an existing reference is merged
with the full fetched document, keeps the reference's `id` and `index`
values, and the expanded list preserves the reference order and length. -/
theorem claim_C10 (s : Store) (rawFields rawVisibility : Value) (cid : String) (cdata : Doc)
    (refs : List Value)
    (hq : queryVisibilityRaw s.collections rawVisibility = [(cid, cdata)])
    (hrefs : jsGet cdata "products" = Value.arr refs)
    (hpm : "products" ∈ sanitizeStringList rawFields) :
    ∃ res, getCollections s rawFields rawVisibility = some [res] ∧
      lookupKey res "products" = some (Value.arr (expandCollectionProducts s refs)) ∧
      (expandCollectionProducts s refs).length = refs.length ∧
      (∀ (i : Nat) (hi : i < refs.length) (hi2 : i < (expandCollectionProducts s refs).length),
        (getById s.products (strOf (vGet refs[i] "id")) = none →
          (expandCollectionProducts s refs)[i] =
            Value.obj [("id", vGet refs[i] "id"), ("index", vGet refs[i] "index")]) ∧
        (∀ d, getById s.products (strOf (vGet refs[i] "id")) = some d →
          (d.map Prod.fst).Nodup →
          vGet (expandCollectionProducts s refs)[i] "id" = vGet refs[i] "id" ∧
          vGet (expandCollectionProducts s refs)[i] "index" = vGet refs[i] "index" ∧
          (∀ k, k ≠ "id" → k ≠ "index" →
            vGet (expandCollectionProducts s refs)[i] k = jsGet d k))) := by
  refine ⟨collectionEntry s (sanitizeStringList rawFields) (cid, cdata), ?_, ?_, ?_, ?_⟩
  · simp only [getCollections, sanitizeBaseOptions]
    rw [hq]
    simp only [List.map_cons, List.map_nil, sortItemsNum_singleton]
    rfl
  · rw [lookupKey_collectionEntry]
    simp only [if_neg (by simp : ¬("products" : String) = "collectionType"),
      if_neg (by simp : ¬("products" : String) = "visibility"),
      if_neg (by simp : ¬("products" : String) = "index"),
      if_neg (by simp : ¬("products" : String) = "updatedAt"), if_pos rfl]
    rw [if_pos hpm]
    rw [hrefs]
    rfl
  · unfold expandCollectionProducts
    simp
  · intro i hi hi2
    constructor
    · intro hnone
      unfold expandCollectionProducts
      rw [List.getElem_map]
      rw [hnone]
    · intro d hd hnd
      unfold expandCollectionProducts
      rw [List.getElem_map, hd]
      refine ⟨?_, ?_, ?_⟩
      · simp only [vGet, jsGet]
        rw [lookupKey_setKey, if_neg (by simp), lookupKey_setKey, if_pos rfl]
        exact Option.getD_some
      · simp only [vGet, jsGet]
        rw [lookupKey_setKey, if_pos rfl]
        exact Option.getD_some
      · intro k hk1 hk2
        simp only [vGet, jsGet]
        rw [lookupKey_setKey, if_neg (fun hh => hk2 hh.symm),
          lookupKey_setKey, if_neg (fun hh => hk1 hh.symm)]
        rw [lookupKey_spreadInto _ _ _ hnd]
        cases hlk : lookupKey d k with
        | some w => simp
        | none => simp [lookupKey_nil]

/-! ### Witnesses and counterexamples -/

unseal List.merge List.mergeSort in
/-- Counterexample to claim C1 as stated: `getCollections` with an empty
sanitized fields list does not return the full stored document — the stored
`title` field is missing from the result. -/
theorem claim_C1_counterexample :
    lookupKey (headDocOf (getCollections st2C Value.undefined Value.undefined)) "title" = none ∧
    lookupKey cdocC "title" = some (Value.str "T") ∧
    sanitizeStringList Value.undefined = [] := ⟨rfl, rfl, rfl⟩

theorem claim_C1_witness :
    (getProduct st1C "p1" (Value.arr [Value.str "name"])).1 =
      some [("id", Value.str "p1"), ("name", Value.str "New")] ∧
    lookupKey [("id", Value.str "p1"), ("name", Value.str "New")] "name" =
      projectedValue (sanitizeStringList (Value.arr [Value.str "name"])) pdocC "name" := by
  obtain ⟨res, h1, h2, h3⟩ :=
    claim_C1.1 st1C "p1" (Value.arr [Value.str "name"]) pdocC rfl (by decide) (by decide)
  have hres : res = [("id", Value.str "p1"), ("name", Value.str "New")] :=
    Option.some_inj.mp (h1.symm.trans rfl)
  exact ⟨hres ▸ h1, hres ▸ h2 "name" (by decide)⟩

unseal List.merge List.mergeSort in
/-- Counterexample to claim C2 as stated: `getUpsells` on an empty store
returns the empty list, not `null`. -/
theorem claim_C2_counterexample :
    getUpsells emptyStore = some [] ∧ some ([] : List Doc) ≠ none :=
  ⟨rfl, by simp⟩

theorem claim_C2_witness : getCategories emptyStore = none :=
  claim_C2.2.2.2.2.2.2.1 emptyStore rfl

/-- Counterexample to claim C3 as stated: `getUpsell` with the empty id does
issue a store lookup instead of returning early. -/
theorem claim_C3_counterexample :
    (getUpsell emptyStore "").2 = [StoreOp.pointGet "upsells" ""] ∧
    [StoreOp.pointGet "upsells" ""] ≠ ([] : List StoreOp) :=
  ⟨rfl, by simp⟩

theorem claim_C3_witness : getProduct emptyStore " " Value.undefined = (none, []) :=
  claim_C3.1 emptyStore " " Value.undefined (by decide)

/-- Counterexample to claim C4 as stated: the resolved snapshot's `name` is
the stale name stored inside the upsell document ("Old"), not the name of the
currently stored product document ("New"). -/
theorem claim_C4_counterexample :
    vGet ((upsellProductsOf (getProductWithUpsell st1C "p1" (Value.arr []))).headD Value.undefined)
      "name" = Value.str "Old" ∧
    jsGet pdocC "name" = Value.str "New" ∧
    Value.str "Old" ≠ Value.str "New" :=
  ⟨rfl, rfl, by simp⟩

theorem claim_C4_witness :
    resolveUpsellItem st1C uitem0 =
      some (Value.obj
        [("index", Value.num 0), ("name", Value.str "Old"), ("id", Value.str "p1"),
         ("slug", Value.str "s"), ("mainImage", Value.str "m"),
         ("basePrice", Value.num 5)]) ∧
    vGet (Value.obj
        [("index", Value.num 0), ("name", Value.str "Old"), ("id", Value.str "p1"),
         ("slug", Value.str "s"), ("mainImage", Value.str "m"),
         ("basePrice", Value.num 5)]) "name" = vGet uitem0 "name" := by
  obtain ⟨entry, he, hc⟩ := claim_C4 st1C uitem0 pdocC rfl
  have heq : entry = Value.obj
      [("index", Value.num 0), ("name", Value.str "Old"), ("id", Value.str "p1"),
       ("slug", Value.str "s"), ("mainImage", Value.str "m"),
       ("basePrice", Value.num 5)] :=
    Option.some_inj.mp (he.symm.trans rfl)
  exact ⟨heq ▸ he, heq ▸ hc.2.1⟩

theorem claim_C5_witness :
    ((getSettings settingsStore).1.map Prod.fst) = ["categorySection"] := by
  have h := claim_C5 settingsStore (by
    intro d hd
    rw [show getById settingsStore.settings "defaultSettings" =
      some [("junk", Value.num 1)] from rfl] at hd
    cases hd
    decide)
  exact h.1

theorem claim_C6_witness :
    (getPageHero emptyStore).1 =
      [("id", Value.str "homepageHero"),
       ("images", Value.obj [("desktop", Value.str ""), ("mobile", Value.str "")]),
       ("title", Value.str ""), ("destinationUrl", Value.str ""),
       ("visibility", Value.str "HIDDEN")] ∧
    StoreOp.putDoc "pageHero" "homepageHero" ∈ (getPageHero emptyStore).2.2 ∧
    getById ((getPageHero emptyStore).2.1).pageHero "homepageHero" = some defaultPageHero ∧
    (getPageHero ((getPageHero emptyStore).2.1)).1 = (getPageHero emptyStore).1 :=
  (claim_C6 emptyStore).1 rfl

unseal List.merge List.mergeSort in
theorem claim_C7_witness :
    ([[("id", Value.str "b"), ("index", Value.num 1)],
      [("id", Value.str "a"), ("index", Value.num 2)]] : List Doc).Pairwise
      (fun a b => toNum (jsGet a "index") ≤ toNum (jsGet b "index")) :=
  claim_C7.2.2.2.2.1 catStore _ rfl

theorem claim_C8_witness :
    (sanitizeMultiItemOptions
      (Value.arr [Value.str "a", Value.str " ", Value.str "a", Value.num 3])
      Value.undefined (Value.str "published")).ids = ["a", "a"] ∧
    (sanitizeMultiItemOptions
      (Value.arr [Value.str "a", Value.str " ", Value.str "a", Value.num 3])
      Value.undefined (Value.str "published")).visibility = some "PUBLISHED" := by
  have h1 := (claim_C8
    (Value.arr [Value.str "a", Value.str " ", Value.str "a", Value.num 3])
    Value.undefined (Value.str "published")).1 _ rfl
  have h2 := (claim_C8
    (Value.arr [Value.str "a", Value.str " ", Value.str "a", Value.num 3])
    Value.undefined (Value.str "published")).2.2.2.2.1 "published" rfl
  constructor
  · rw [h1]
    rfl
  · rw [h2]
    rfl

theorem claim_C9_witness :
    getProductWithUpsell wprodStore "p0" (Value.arr []) =
      some [("id", Value.str "p0"), ("name", Value.str "A")] :=
  claim_C9.2.1 wprodStore "p0" (Value.arr []) _ rfl rfl

unseal List.merge List.mergeSort in
theorem claim_C10_witness :
    getCollections wcollStore (Value.arr [Value.str "products"]) Value.undefined =
      some [[("id", Value.str "c1"),
             ("products", Value.arr [Value.obj [("id", Value.str "nope"), ("index", Value.num 3)]]),
             ("updatedAt", Value.undefined), ("index", Value.num 0),
             ("visibility", Value.undefined), ("collectionType", Value.undefined)]] ∧
    getById wcollStore.products "nope" = none := by
  obtain ⟨res, h1, h2, h3, h4⟩ := claim_C10 wcollStore (Value.arr [Value.str "products"])
    Value.undefined "c1" wcdoc [Value.obj [("id", Value.str "nope"), ("index", Value.num 3)]]
    rfl rfl (by decide)
  have hres : res =
      [("id", Value.str "c1"),
       ("products", Value.arr [Value.obj [("id", Value.str "nope"), ("index", Value.num 3)]]),
       ("updatedAt", Value.undefined), ("index", Value.num 0),
       ("visibility", Value.undefined), ("collectionType", Value.undefined)] := by
    have h5 : getCollections wcollStore (Value.arr [Value.str "products"]) Value.undefined =
        some [[("id", Value.str "c1"),
               ("products", Value.arr [Value.obj [("id", Value.str "nope"), ("index", Value.num 3)]]),
               ("updatedAt", Value.undefined), ("index", Value.num 0),
               ("visibility", Value.undefined), ("collectionType", Value.undefined)]] := rfl
    have h6 := h1.symm.trans h5
    have h7 := Option.some_inj.mp h6
    exact (List.cons_eq_cons.mp h7).1
  exact ⟨hres ▸ h1, rfl⟩
